import Mathlib

/-!
Verification development for `@percy/dom` (`packages/dom/dist/bundle.js`).

The bundle serialises a live browser document into a static HTML string.  The
embedding below keeps two kinds of tree apart, as the program does:

* `Node` / `Document`: the live source tree, with the runtime state the program
  reads (form state, frame documents, shadow roots, style sheets);
* `CNode` / `MockDocument`: the structural clone, which carries markup only.

Everything the program obtains from the browser and that is not written in the
bundle (random numbers, the HTML serialiser, the selector parser, ...) is a
field of `Browser`; `stdBrowser` is one concrete browser used to run the model.
-/

namespace PercyDOM

/-! ## JavaScript outcomes -/

/-- A value raised by a JavaScript `throw`: `null`/`undefined`, or any other
value together with what reading its `message` property gives. -/
inductive Thrown where
  | nullish
  | other (message : Option String)
deriving DecidableEq, Repr

/-- Outcome of running a piece of the program: a value, an exception that
propagates, or exhaustion of the recursion budget of the model. -/
inductive Res (α : Type) where
  | ok (value : α)
  | throw (e : Thrown)
  | outOfFuel
deriving Repr

def Res.bind {α β : Type} : Res α → (α → Res β) → Res β
  | .ok a, f => f a
  | .throw e, _ => .throw e
  | .outOfFuel, _ => .outOfFuel

def Res.isOk {α : Type} : Res α → Bool
  | .ok _ => true
  | _ => false

/-- The `TypeError` raised by a property access or call on `null`/`undefined`. -/
def typeError (message : String) : Thrown := .other (some message)

/-- The `SyntaxError` raised by `querySelector` on a selector that does not parse. -/
def syntaxError (message : String) : Thrown := .other (some message)

/-- The `SecurityError` raised by `toDataURL` on a tainted canvas. -/
def securityError (message : String) : Thrown := .other (some message)

/-- Runs the loop body `f` on every element of `xs` in order, threading the state. -/
def forEachM {α σ : Type} (f : α → σ → Res σ) : List α → σ → Res σ
  | [], s => .ok s
  | x :: xs, s => (f x s).bind (forEachM f xs)

/-! ## Attributes -/

structure Attr where
  name : String
  value : String
deriving DecidableEq, Repr

/-- `elem.getAttribute(name)`: `none` is JavaScript `null`. -/
def getAttribute : List Attr → String → Option String
  | [], _ => none
  | a :: rest, n => if a.name = n then some a.value else getAttribute rest n

/-- `elem.setAttribute(name, value)`: changes the attribute in place when it is
present, appends it otherwise. -/
def setAttribute : List Attr → String → String → List Attr
  | [], n, v => [⟨n, v⟩]
  | a :: rest, n, v => if a.name = n then ⟨n, v⟩ :: rest else a :: setAttribute rest n v

/-- `elem.removeAttribute(name)`. -/
def removeAttribute : List Attr → String → List Attr
  | [], _ => []
  | a :: rest, n => if a.name = n then rest else a :: removeAttribute rest n

def hasAttribute (attrs : List Attr) (n : String) : Bool :=
  (getAttribute attrs n).isSome

/-- JavaScript truthiness of a `string | null`. -/
def truthy : Option String → Bool
  | none => false
  | some s => s != ""

/-- Conversion of a `string | null` inside a template literal. -/
def toStr : Option String → String
  | none => "null"
  | some s => s

def percyElementIdAttr : String := "data-percy-element-id"

/-! ## The clone tree -/

/-- A node of the clone tree: markup only.  `shadowRoot` holds the children of
the open shadow root of the element, when it has one. -/
inductive CNode where
  | element (tag : String) (attrs : List Attr) (shadowRoot : Option (List CNode))
      (children : List CNode)
  | text (data : String)
  | comment (data : String)
deriving Repr

def CNode.isElement : CNode → Bool
  | .element _ _ _ _ => true
  | _ => false

def CNode.tagName : CNode → Option String
  | .element t _ _ _ => some t
  | _ => none

def CNode.attrs : CNode → List Attr
  | .element _ a _ _ => a
  | _ => []

def CNode.children : CNode → List CNode
  | .element _ _ _ k => k
  | _ => []

def CNode.shadowRoot : CNode → Option (List CNode)
  | .element _ _ s _ => s
  | _ => none

def CNode.setAttribute (n v : String) : CNode → CNode
  | .element t a s k => .element t (PercyDOM.setAttribute a n v) s k
  | c => c

def CNode.removeAttribute (n : String) : CNode → CNode
  | .element t a s k => .element t (PercyDOM.removeAttribute a n) s k
  | c => c

def CNode.setChildren (kids : List CNode) : CNode → CNode
  | .element t a s _ => .element t a s kids
  | c => c

/-- `parent.prepend(child)`. -/
def CNode.prepend (child : CNode) : CNode → CNode
  | .element t a s k => .element t a s (child :: k)
  | c => c

/-! ### Addressing nodes of the clone

A reference to a node of the clone is the path of child indices leading to it;
`[]` is the node the path starts from. -/

mutual
/-- First element in tree order, the start node included, that satisfies `p`.
Shadow roots are not entered, as with `querySelector`. -/
def CNode.findPath (p : CNode → Bool) : CNode → Option (List Nat)
  | .element t a s kids =>
    if p (.element t a s kids) then some [] else findPathL p kids 0
  | _ => none
def findPathL (p : CNode → Bool) : List CNode → Nat → Option (List Nat)
  | [], _ => none
  | n :: rest, i =>
    match n.findPath p with
    | some q => some (i :: q)
    | none => findPathL p rest (i + 1)
end

/-- `element.querySelector(sel)`: the first descendant (the element itself
excluded) that satisfies `p`. -/
def CNode.querySelector (p : CNode → Bool) (n : CNode) : Option (List Nat) :=
  findPathL p n.children 0

mutual
def CNode.get? : CNode → List Nat → Option CNode
  | n, [] => some n
  | .element _ _ _ kids, i :: p => getL? kids i p
  | _, _ :: _ => none
def getL? : List CNode → Nat → List Nat → Option CNode
  | [], _, _ => none
  | n :: _, 0, p => n.get? p
  | _ :: rest, i + 1, p => getL? rest i p
end

mutual
/-- Replaces the node at the non-empty path `i :: p` by the nodes `f` gives. -/
def CNode.spliceAt (f : CNode → List CNode) : CNode → Nat → List Nat → CNode
  | .element t a s kids, i, p => .element t a s (spliceAtL f kids i p)
  | n, _, _ => n
def spliceAtL (f : CNode → List CNode) : List CNode → Nat → List Nat → List CNode
  | [], _, _ => []
  | n :: rest, 0, [] => f n ++ rest
  | n :: rest, 0, j :: q => n.spliceAt f j q :: rest
  | n :: rest, i + 1, p => n :: spliceAtL f rest i p
end

/-- In-place change of the node at `path`. -/
def CNode.updateAt (f : CNode → CNode) (n : CNode) : List Nat → CNode
  | [] => f n
  | i :: p => n.spliceAt (fun c => [f c]) i p

/-- Predicate of the selector `[name="v"]`. -/
def attrEquals (name v : String) (n : CNode) : Bool :=
  n.isElement && getAttribute n.attrs name == some v

def tagIs (t : String) (n : CNode) : Bool :=
  n.tagName == some t

/-! ## The live source tree -/

/-- A CSS style sheet object: `href` and the `cssText` of each rule. -/
structure StyleSheet where
  href : Option String := none
  cssRules : List String := []
deriving DecidableEq, Repr

/-- Runtime state of a source element that the program reads and that is not
part of its markup. Each field is the value of the JavaScript expression named
in its comment. -/
structure Live where
  /-- Value of `elem.type` on an input, select or textarea. -/
  type : String := ""
  /-- Value of `elem.checked`. -/
  checked : Bool := false
  /-- Value of `elem.value`. -/
  value : String := ""
  /-- Value of `elem.selectedIndex`, `none` standing for `-1`. -/
  selectedIndex : Option Nat := none
  /-- The `index` of each member of `elem.selectedOptions`, in order. -/
  selectedOptions : List Nat := []
  /-- Value of `frame.srcdoc`. -/
  srcdoc : String := ""
  /-- Value of `frame.src`. -/
  src : String := ""
  /-- Value of `frame.contentWindow.performance.timing.loadEventEnd`. -/
  loadEventEnd : Nat := 0
  /-- Result of `canvas.toDataURL()`; `none` when the call throws. -/
  toDataURL : Option String := some "data:,"
  /-- Result of drawing the video on a fresh canvas and calling `toDataURL()`;
  `none` when that call throws. -/
  frameDataURL : Option String := some "data:,"
  /-- The style sheet owned by a style or link element, listed in
  `document.styleSheets`. -/
  sheet : Option StyleSheet := none
  /-- Children of the open shadow root that a custom-element constructor has
  already attached to a fresh shallow copy of the element, if any. -/
  ctorShadow : Option (List CNode) := none
deriving Repr

/-- Value of `document.doctype`: each property may be `undefined`. -/
structure DocType where
  name : Option String := none
  publicId : Option String := none
  systemId : Option String := none
deriving DecidableEq, Repr

mutual
inductive Node where
  | element (tag : String) (attrs : List Attr) (live : Live) (shadowRoot : Option ShadowRoot)
      (contentDocument : Option Document) (children : List Node)
  | text (data : String)
  | comment (data : String)
inductive ShadowRoot where
  | mk (adoptedStyleSheets : List (List String)) (children : List Node)
inductive Document where
  | mk (doctype : Option DocType) (documentElement : Option Node)
end

def Document.doctype : Document → Option DocType
  | .mk d _ => d

def Document.documentElement : Document → Option Node
  | .mk _ r => r

def Node.tagName : Node → Option String
  | .element t _ _ _ _ _ => some t
  | _ => none

def Node.attrs : Node → List Attr
  | .element _ a _ _ _ _ => a
  | _ => []

def Node.live : Node → Live
  | .element _ _ l _ _ _ => l
  | _ => {}

def Node.children : Node → List Node
  | .element _ _ _ _ _ k => k
  | _ => []

def Node.shadowRoot : Node → Option ShadowRoot
  | .element _ _ _ s _ _ => s
  | _ => none

def Node.contentDocument : Node → Option Document
  | .element _ _ _ _ d _ => d
  | _ => none

def Node.getAttribute (n : Node) (name : String) : Option String :=
  PercyDOM.getAttribute n.attrs name

mutual
/-- Elements of the subtree in tree order, the start node included.  Shadow
roots and frame documents are not entered. -/
def Node.elements : Node → List Node
  | .element t a l s d kids => .element t a l s d kids :: elementsL kids
  | _ => []
def elementsL : List Node → List Node
  | [] => []
  | n :: rest => n.elements ++ elementsL rest
end

def Node.hasTagIn (tags : List String) (n : Node) : Bool :=
  match n.tagName with
  | some t => tags.contains t
  | none => false

/-- `dom.querySelectorAll('t1, t2, ...')` for a list of type selectors. -/
def Document.querySelectorAll (tags : List String) (dom : Document) : List Node :=
  match dom.documentElement with
  | none => []
  | some root => root.elements.filter (Node.hasTagIn tags)

/-! ## The browser -/

/-- What the program obtains from the browser. -/
structure Browser where
  /-- The string `Math.random().toString(36).substr(2, 9)` of the `k`-th call. -/
  random : Nat → String
  /-- Value of `baseURI` on nodes owned by the global `document`. -/
  baseURI : String
  /-- Value of `new URL(baseURI).hostname`. -/
  baseHostname : String
  /-- The value that the selector `[data-percy-element-id="s"]` (with `true`) or
  `[data-percy-element-id=s]` (with `false`) compares the attribute with; `none`
  when the selector text does not parse. -/
  cssAttrValue : Bool → String → Option String
  /-- Children that `textarea.innerHTML = s` gives the textarea. -/
  parseTextarea : String → List CNode
  /-- Result of `element.getInnerHTML()`. -/
  getInnerHTML : CNode → String
  /-- Value of `element.outerHTML`. -/
  outerHTML : CNode → String
  /-- Value of the `style` attribute after `img.style.maxWidth =
  img.style.maxWidth || '100%'`, from the attribute before. -/
  styleMaxWidth : Option String → String

/-- Mutable state outside the trees: how many random numbers were drawn and
what was written to the console. -/
structure World where
  calls : Nat := 0
  console : List String := []
deriving DecidableEq, Repr

/-! ## `uid` and `prepareDOM` (lines 9-21) -/

/-- Returns a mostly random uid. -/
def uid (B : Browser) (w : World) : String × World :=
  ("_" ++ B.random w.calls, { w with calls := w.calls + 1 })

def tagWorthy : List String :=
  ["input", "textarea", "select", "iframe", "canvas", "video", "style"]

/-- Loop body of `prepareDOM` on the attributes of a matched element. -/
def prepareElement (B : Browser) (attrs : List Attr) (w : World) : List Attr × World :=
  if !truthy (getAttribute attrs percyElementIdAttr) then
    (setAttribute attrs percyElementIdAttr (uid B w).1, (uid B w).2)
  else (attrs, w)

mutual
/-- The loop of `prepareDOM` below a node: the matched elements are visited in
tree order and changed in place. -/
def prepareNode (B : Browser) : Node → World → Node × World
  | .element t a l s d kids, w =>
    let r := if tagWorthy.contains t then prepareElement B a w else (a, w)
    let rk := prepareList B kids r.2
    (.element t r.1 l s d rk.1, rk.2)
  | n, w => (n, w)
def prepareList (B : Browser) : List Node → World → List Node × World
  | [], w => ([], w)
  | n :: rest, w =>
    let r := prepareNode B n w
    let rr := prepareList B rest r.2
    (r.1 :: rr.1, rr.2)
end

/-- Marks elements that are to be serialized later with a data attribute. -/
def prepareDOM (B : Browser) : Document → World → Document × World
  | .mk dt none, w => (.mk dt none, w)
  | .mk dt (some root), w => (.mk dt (some (prepareNode B root w).1), (prepareNode B root w).2)

/-! ## `deepClone` and `cloneNodeAndShadow` (lines 190-241) -/

/-- The style element synthesised for one adopted style sheet. -/
def adoptedStyle (rules : List String) : CNode :=
  .element "style" [] none [.text ("\n".intercalate rules)]

/-- The `for (let sheet of node.shadowRoot.adoptedStyleSheets)` loop: each style
is prepended to the children the clone shadow root has so far. -/
def prependAdopted : List (List String) → List CNode → List CNode
  | [], acc => acc
  | sheet :: rest, acc => prependAdopted rest (adoptedStyle sheet :: acc)

/-- Children of the clone shadow root once the source is known to have a shadow
root: a root the constructor attached is emptied (`innerHTML = ""`), otherwise a
new, empty one is attached. -/
def emptiedShadow : Option (List CNode) → List CNode
  | some _ => []
  | none => []

mutual
/-- The clone subtree that `cloneNode(node, parent)` appends to `parent`. -/
def cloneNode : Node → CNode
  | .element t a l sr _ kids =>
    match sr with
    | some (.mk sheets skids) =>
      .element t a (some (prependAdopted sheets (emptiedShadow l.ctorShadow) ++ walkTree skids))
        (walkTree kids)
    | none => .element t a l.ctorShadow (walkTree kids)
  | .text d => .text d
  | .comment d => .comment d
/-- The nodes `walkTree(nextn, nextp)` appends to `nextp`, `nextn` being the
first node of the sibling list. -/
def walkTree : List Node → List CNode
  | [] => []
  | n :: rest => cloneNode n :: walkTree rest
end

/-- Children of the fragment `deepClone(host)` returns. -/
def deepClone (host : Node) : List CNode := [cloneNode host]

/-- The fragment `cloneNodeAndShadow` returns.  `documentElement` is the node
stored in `.documentElement`; `attached` tells whether it is still the child of
the fragment; `head` holds the children of the separate, fresh fragment stored
in `.head`. -/
structure MockDocument where
  documentElement : CNode
  attached : Bool := true
  head : List CNode := []
deriving Repr

/-- Deep clone a document while also preserving shadow roots. -/
def cloneNodeAndShadow (doc : Document) : Res MockDocument :=
  match doc.documentElement with
  | none => .throw (typeError "Cannot read properties of null (reading cloneNode)")
  | some root =>
    match deepClone root with
    | first :: _ => .ok { documentElement := first, attached := true, head := [] }
    | [] => .throw (typeError "mockDocument.firstChild is null")

/-! ## Operations on the mock document -/

mutual
/-- Structural equality of clone nodes. -/
def CNode.beq : CNode → CNode → Bool
  | .element t a none k, .element t2 a2 none k2 => t == t2 && a == a2 && beqL k k2
  | .element t a (some s) k, .element t2 a2 (some s2) k2 =>
    t == t2 && a == a2 && beqL s s2 && beqL k k2
  | .text d, .text d2 => d == d2
  | .comment d, .comment d2 => d == d2
  | _, _ => false
def beqL : List CNode → List CNode → Bool
  | [], [] => true
  | x :: xs, y :: ys => x.beq y && beqL xs ys
  | _, _ => false
end

mutual
/-- Whether `target` occurs in the subtree of the node, the node included. -/
def CNode.containsNode : CNode → CNode → Bool
  | .element t a s kids, target =>
    (CNode.element t a s kids).beq target || containsNodeL kids target
  | .text d, target => (CNode.text d).beq target
  | .comment d, target => (CNode.comment d).beq target
def containsNodeL : List CNode → CNode → Bool
  | [], _ => false
  | n :: rest, target => n.containsNode target || containsNodeL rest target
end

/-- `clone.querySelector(sel)` on the fragment, for a selector with predicate `p`. -/
def MockDocument.querySelector (p : CNode → Bool) (m : MockDocument) : Option (List Nat) :=
  if m.attached then m.documentElement.findPath p else none

/-- The lookup of a clone by identifier: the template literal is filled with
`id` and handed to `clone.querySelector`. `quoted` tells whether the selector
puts the identifier in double quotes. -/
def MockDocument.querySelectorId (B : Browser) (quoted : Bool) (id : Option String)
    (m : MockDocument) : Res (Option (List Nat)) :=
  match B.cssAttrValue quoted (toStr id) with
  | none => .throw (syntaxError "not a valid selector")
  | some v => .ok (m.querySelector (attrEquals percyElementIdAttr v))

def MockDocument.get? (m : MockDocument) (path : List Nat) : Option CNode :=
  m.documentElement.get? path

/-- In-place change of the node at `path`. -/
def MockDocument.update (m : MockDocument) (path : List Nat) (f : CNode → CNode) :
    MockDocument :=
  { m with documentElement := m.documentElement.updateAt f path }

/-- `cloneEl.remove()` for the node at `path`. -/
def MockDocument.remove (m : MockDocument) : List Nat → MockDocument
  | [] => { m with attached := false }
  | i :: p => { m with documentElement := m.documentElement.spliceAt (fun _ => []) i p }

/-- `clone.head.contains(cloneEl)`: whether the node is in the tree of the
fragment stored in `.head`.  Object identity is rendered by structural
equality. -/
def MockDocument.headContains (m : MockDocument) (cloneEl : Option (List Nat)) : Bool :=
  match cloneEl with
  | none => false
  | some path =>
    match m.get? path with
    | none => false
    | some node => containsNodeL m.head node

/-- Applies `f` to the clone when the lookup found one; a `null` clone makes the
method call throw. -/
def withClone (cloneEl : Option (List Nat)) (f : List Nat → Res MockDocument) :
    Res MockDocument :=
  match cloneEl with
  | none => .throw (typeError "Cannot read properties of null")
  | some path => f path

/-! ## `serializeInputElements` (lines 23-60) -/

/-- Paths, from a child list starting at index `i`, of the option elements in it. -/
def optionsAmong (outer : List Nat) : List CNode → Nat → List (List Nat)
  | [], _ => []
  | c :: rest, i =>
    (if tagIs "option" c then [outer ++ [i]] else []) ++ optionsAmong outer rest (i + 1)

/-- Paths of the members of `select.options`: the option children of the select
and of its optgroup children, in tree order. -/
def selectOptions : List CNode → Nat → List (List Nat)
  | [], _ => []
  | c :: rest, i =>
    (if tagIs "option" c then [[i]]
      else if tagIs "optgroup" c then optionsAmong [i] c.children 0
      else []) ++ selectOptions rest (i + 1)

/-- The statement `cloneEl.options[index].setAttribute('selected', 'true')`. -/
def markSelected (m : MockDocument) (cloneEl : Option (List Nat)) (index : Nat) :
    Res MockDocument :=
  withClone cloneEl fun path =>
    match m.get? path with
    | none => .throw (typeError "Cannot read properties of null")
    | some el =>
      if tagIs "select" el then
        match (selectOptions el.children 0).get? index with
        | none => .throw (typeError "Cannot read properties of undefined (reading setAttribute)")
        | some rel => .ok (m.update (path ++ rel) (CNode.setAttribute "selected" "true"))
      else .throw (typeError "Cannot read properties of undefined")

/-- Loop body of `serializeInputElements`. -/
def serializeInputElement (B : Browser) (elem : Node) (clone : MockDocument) :
    Res MockDocument :=
  let inputId := elem.getAttribute percyElementIdAttr
  (clone.querySelectorId B true inputId).bind fun cloneEl =>
    if elem.live.type = "checkbox" ∨ elem.live.type = "radio" then
      if elem.live.checked then
        withClone cloneEl fun path => .ok (clone.update path (CNode.setAttribute "checked" ""))
      else .ok clone
    else if elem.live.type = "select-one" then
      match elem.live.selectedIndex with
      | some index => markSelected clone cloneEl index
      | none => .ok clone
    else if elem.live.type = "select-multiple" then
      forEachM (fun index c => markSelected c cloneEl index) elem.live.selectedOptions clone
    else if elem.live.type = "textarea" then
      withClone cloneEl fun path =>
        .ok (clone.update path (CNode.setChildren (B.parseTextarea elem.live.value)))
    else
      withClone cloneEl fun path =>
        .ok (clone.update path (CNode.setAttribute "value" elem.live.value))

/-- Translates JavaScript properties of inputs into DOM attributes. -/
def serializeInputElements (B : Browser) (dom : Document) (clone : MockDocument) :
    Res MockDocument :=
  forEachM (serializeInputElement B) (dom.querySelectorAll ["input", "textarea", "select"]) clone

/-! ## `setBaseURI` and `serializeFrames` (lines 62-104) -/

/-- A caller-supplied `domTransformation`: what it leaves of the root element it
was given, and the value it threw, if it threw. -/
abbrev Transformation := CNode → CNode × Option Thrown

/-- Embedded documents are serialized and their contents become root-relative.
The element handed in is a clone; clones are appended to a fragment made by the
global `document`, so `dom.baseURI` is the base URI of that document. -/
def setBaseURI (B : Browser) : Transformation := fun dom =>
  if B.baseHostname = "" then (dom, none)
  else
    let base := CNode.element "base" [⟨"href", B.baseURI⟩] none []
    match dom.querySelector (tagIs "head") with
    | none => (dom, some (typeError "Cannot read properties of null (reading prepend)"))
    | some path => (dom.updateAt (CNode.prepend base) path, none)

/-- The part of `s` before the first `sep`: `s.split(sep)[0]`. -/
def splitHead (sep : Char) : List Char → List Char
  | [] => []
  | c :: rest => if c = sep then [] else c :: splitHead sep rest

def builtWithJs (frame : Node) : Bool :=
  frame.live.srcdoc == "" &&
    (frame.live.src == "" || String.mk (splitHead ':' frame.live.src.data) == "javascript")

/-- The test `frame.contentDocument && frame.contentDocument.documentElement`:
the inner document when it passes. -/
def accessibleDocument (frame : Node) : Option Document :=
  match frame.contentDocument with
  | some (.mk dt (some root)) => some (.mk dt (some root))
  | _ => none

/-- Loop body of `serializeFrames`.  `recur d w` is the call
`serializeDOM({ domTransformation: setBaseURI, dom: d, enableJavaScript })`. -/
def serializeFrame (recur : Document → World → Res (String × World)) (B : Browser)
    (enableJavaScript : Bool) (frame : Node) (st : MockDocument × World) :
    Res (MockDocument × World) :=
  let percyElementId := frame.getAttribute percyElementIdAttr
  (st.1.querySelectorId B true percyElementId).bind fun cloneEl =>
    if st.1.headContains cloneEl then
      (withClone cloneEl fun path => .ok (st.1.remove path)).bind fun c => .ok (c, st.2)
    else
      match accessibleDocument frame with
      | some inner =>
        if enableJavaScript && builtWithJs frame then .ok st
        else if !builtWithJs frame && frame.live.loadEventEnd == 0 then .ok st
        else
          (recur inner st.2).bind fun r =>
            (withClone cloneEl fun path =>
              .ok (st.1.update path fun c =>
                (c.setAttribute "srcdoc" r.1).removeAttribute "src")).bind fun c =>
              .ok (c, r.2)
      | none =>
        if !enableJavaScript && builtWithJs frame then
          (withClone cloneEl fun path => .ok (st.1.remove path)).bind fun c => .ok (c, st.2)
        else .ok st

/-- Recursively serializes iframe documents into srcdoc attributes. -/
def serializeFrames (recur : Document → World → Res (String × World)) (B : Browser)
    (enableJavaScript : Bool) (dom : Document) (st : MockDocument × World) :
    Res (MockDocument × World) :=
  forEachM (serializeFrame recur B enableJavaScript) (dom.querySelectorAll ["iframe"]) st

/-! ## `serializeCSSOM`, `serializeCanvas`, `serializeVideos` (lines 106-183) -/

mutual
/-- Text of the descendants of a node, in tree order. -/
def Node.textContent : Node → String
  | .element _ _ _ _ _ kids => textContentL kids
  | .text d => d
  | .comment _ => ""
def textContentL : List Node → String
  | [] => ""
  | n :: rest => n.textContent ++ textContentL rest
end

/-- White space as `String.prototype.trim` understands it. -/
def isJsWhiteSpace (c : Char) : Bool :=
  let n := c.toNat
  (9 ≤ n && n ≤ 13) || n == 32 || n == 160 || n == 5760 || (8192 ≤ n && n ≤ 8202) ||
    n == 8232 || n == 8233 || n == 8239 || n == 8287 || n == 12288 || n == 65279

/-- Truthiness of `s.trim().length`. -/
def trimmedNonEmpty (s : String) : Bool :=
  s.data.any fun c => !isJsWhiteSpace c

/-- The members of `dom.styleSheets`, each with its owner node. -/
def Document.styleSheets (dom : Document) : List (StyleSheet × Node) :=
  match dom.documentElement with
  | none => []
  | some root => root.elements.filterMap fun n => n.live.sheet.map fun sh => (sh, n)

/-- Returns true if a stylesheet is a CSSOM-based stylesheet: no href, has a
rulesheet, and is not already in the DOM. -/
def isCSSOM (entry : StyleSheet × Node) : Bool :=
  !truthy entry.1.href && !trimmedNonEmpty entry.2.textContent

/-- Loop body of `serializeCSSOM`: its first statement calls
`clone.createElement`, which a document fragment does not have. -/
def serializeStyleSheet (entry : StyleSheet × Node) (clone : MockDocument) : Res MockDocument :=
  if isCSSOM entry then .throw (typeError "clone.createElement is not a function")
  else .ok clone

/-- Outputs in-memory CSSOM into their respective DOM nodes. -/
def serializeCSSOM (dom : Document) (clone : MockDocument) : Res MockDocument :=
  forEachM serializeStyleSheet dom.styleSheets clone

/-- The `for (let { name, value } of canvas.attributes)` loop on the image. -/
def copyAttributes : List Attr → List Attr → List Attr
  | [], img => img
  | a :: rest, img => copyAttributes rest (setAttribute img a.name a.value)

/-- The image element that replaces a canvas. -/
def canvasImage (B : Browser) (canvas : Node) (dataUrl : String) : CNode :=
  let attrs := copyAttributes canvas.attrs [⟨"src", dataUrl⟩]
  let attrs := setAttribute attrs "data-percy-canvas-serialized" ""
  let attrs := setAttribute attrs "style" (B.styleMaxWidth (getAttribute attrs "style"))
  .element "img" attrs none []

/-- Loop body of `serializeCanvas`. -/
def serializeCanvasElement (B : Browser) (canvas : Node) (clone : MockDocument) :
    Res MockDocument :=
  match canvas.live.toDataURL with
  | none => .throw (securityError "Tainted canvases may not be exported")
  | some dataUrl =>
    if dataUrl = "" ∨ dataUrl = "data:," then .ok clone
    else
      let img := canvasImage B canvas dataUrl
      let percyElementId := canvas.getAttribute percyElementIdAttr
      (clone.querySelectorId B false percyElementId).bind fun cloneEl =>
        withClone cloneEl fun path =>
          match path with
          | [] => .throw (typeError "Cannot read properties of null (reading insertBefore)")
          | i :: p =>
            .ok { clone with
              documentElement := clone.documentElement.spliceAt (fun _ => [img]) i p }

/-- Serialize in-memory canvas elements into images. -/
def serializeCanvas (B : Browser) (dom : Document) (clone : MockDocument) : Res MockDocument :=
  forEachM (serializeCanvasElement B) (dom.querySelectorAll ["canvas"]) clone

/-- Loop body of `serializeVideos`. -/
def serializeVideo (B : Browser) (video : Node) (clone : MockDocument) : Res MockDocument :=
  if truthy (video.getAttribute "poster") then .ok clone
  else
    let videoId := video.getAttribute percyElementIdAttr
    (clone.querySelectorId B true videoId).bind fun cloneEl =>
      match video.live.frameDataURL with
      | none => .ok clone
      | some dataUrl =>
        if dataUrl = "" ∨ dataUrl = "data:," then .ok clone
        else withClone cloneEl fun path =>
          .ok (clone.update path (CNode.setAttribute "poster" dataUrl))

/-- Captures the current frame of videos and sets the poster image. -/
def serializeVideos (B : Browser) (dom : Document) (clone : MockDocument) : Res MockDocument :=
  forEachM (serializeVideo B) (dom.querySelectorAll ["video"]) clone

/-! ## `String.prototype.replace` with a string pattern -/

def startsWithChars : List Char → List Char → Bool
  | _, [] => true
  | [], _ :: _ => false
  | c :: s, d :: pat => c == d && startsWithChars s pat

/-- Splits `s` around the first occurrence of `pat`: the text before it and the
text after it. -/
def splitAtFirst (pat : List Char) : List Char → Option (List Char × List Char)
  | [] => if pat.isEmpty then some ([], []) else none
  | c :: rest =>
    if startsWithChars (c :: rest) pat then some ([], (c :: rest).drop pat.length)
    else
      match splitAtFirst pat rest with
      | some r => some (c :: r.1, r.2)
      | none => none

/-- The abstract operation GetSubstitution of ECMAScript for a match without
captures: in the replacement text `$$` stands for a dollar sign, `$&` for the
matched text, a dollar sign and a grave accent for the text before the match, a
dollar sign and an apostrophe for the text after it; every other character
stands for itself. -/
def getSubstitution (matched before after : List Char) : List Char → List Char
  | [] => []
  | [c] => [c]
  | c :: d :: rest =>
    if c = '$' then
      if d = '$' then '$' :: getSubstitution matched before after rest
      else if d = '&' then matched ++ getSubstitution matched before after rest
      else if d = Char.ofNat 96 then before ++ getSubstitution matched before after rest
      else if d = Char.ofNat 39 then after ++ getSubstitution matched before after rest
      else c :: getSubstitution matched before after (d :: rest)
    else c :: getSubstitution matched before after (d :: rest)

/-- The call `s.replace(pat, replacement)` with `pat` a string: the first
occurrence of `pat` is replaced, the replacement text being expanded first. -/
def jsReplace (s pat replacement : String) : String :=
  match splitAtFirst pat.data s.data with
  | none => s
  | some r => String.mk (r.1 ++ getSubstitution pat.data r.1 r.2 replacement.data ++ r.2)

/-! ## `getOuterHTML`, `doctype`, `serializeDOM` (lines 242-304) -/

/-- Use `getInnerHTML()` to serialize shadow dom as template tags. -/
def getOuterHTML (B : Browser) (docElement : CNode) : String :=
  let innerHTML := B.getInnerHTML docElement
  let docElement := docElement.setChildren []
  jsReplace (B.outerHTML docElement) "</html>" (innerHTML ++ "</html>")

def doctype (dom : Option Document) : String :=
  let dt : DocType := (dom.bind Document.doctype).getD {}
  let name := dt.name.getD "html"
  let publicId := dt.publicId.getD ""
  let systemId := dt.systemId.getD ""
  let deprecated :=
    if publicId ≠ "" ∧ systemId ≠ "" then " PUBLIC \"" ++ publicId ++ "\" \"" ++ systemId ++ "\""
    else if publicId ≠ "" then " PUBLIC \"" ++ publicId ++ "\""
    else if systemId ≠ "" then " SYSTEM \"" ++ systemId ++ "\""
    else ""
  "<!DOCTYPE " ++ name ++ deprecated ++ ">"

/-- The argument of `serializeDOM`; `none` is a property that is `undefined`. -/
structure Options where
  dom : Document
  enableJavaScript : Option Bool := none
  enable_javascript : Option Bool := none
  domTransformation : Option Transformation := none
  dom_transformation : Option Transformation := none

/-- The statements of `serializeDOM` from `let doc = clone.documentElement` on. -/
def assemble (B : Browser) (dom : Document) (domTransformation : Option Transformation)
    (clone : MockDocument) (w : World) : Res (String × World) :=
  let doc := clone.documentElement
  match domTransformation with
  | none => .ok (doctype (some dom) ++ getOuterHTML B doc, w)
  | some transform =>
    -- `r.1` is the root element as the transformation left it, `r.2` what it threw
    let r := transform doc
    match r.2 with
    | none => .ok (doctype (some dom) ++ getOuterHTML B r.1, w)
    | some .nullish =>
      -- reading `err.message` throws inside the catch block
      .throw (typeError "Cannot read properties of null (reading message)")
    | some (.other message) =>
      .ok (doctype (some dom) ++ getOuterHTML B r.1,
        { w with console := w.console ++
            ["Could not transform the dom: " ++ message.getD "undefined"] })

/-- The statements of `serializeDOM` between `prepareDOM(dom)` and
`let doc = clone.documentElement`: the clone is made and the materializers run
on it.  `recur` is the recursive call made for a frame document. -/
def materialize (recur : Document → World → Res (String × World)) (B : Browser)
    (enableJavaScript : Bool) (dom : Document) (w : World) : Res (MockDocument × World) :=
  (cloneNodeAndShadow dom).bind fun clone =>
  (serializeInputElements B dom clone).bind fun clone =>
  (serializeFrames recur B enableJavaScript dom (clone, w)).bind fun st =>
  (serializeVideos B dom st.1).bind fun clone =>
  (if !enableJavaScript then (serializeCSSOM dom clone).bind (serializeCanvas B dom)
    else .ok clone).bind fun clone =>
  .ok (clone, st.2)

/-- Serializes a document and returns the resulting DOM string.  The first
argument bounds the nesting depth of the recursive calls made for frames. -/
def serializeDOM (B : Browser) : Nat → Options → World → Res (String × World)
  | 0, _, _ => .outOfFuel
  | fuel + 1, options, w =>
    let enableJavaScript := options.enableJavaScript.orElse fun _ => options.enable_javascript
    let domTransformation := options.domTransformation.orElse fun _ => options.dom_transformation
    let prepared := prepareDOM B options.dom w
    let dom := prepared.1
    (materialize
      (fun inner w2 => serializeDOM B fuel
        { dom := inner, domTransformation := some (setBaseURI B),
          enableJavaScript := enableJavaScript } w2)
      B (enableJavaScript.getD false) dom prepared.2).bind fun st =>
    assemble B dom domTransformation st.1 st.2

/-! ## A concrete browser -/

def voidElements : List String :=
  ["area", "base", "br", "col", "embed", "hr", "img", "input", "link", "meta", "param",
    "source", "track", "wbr"]

def rawTextElements : List String :=
  ["style", "script", "xmp", "iframe", "noembed", "noframes", "plaintext"]

def escapeChar (inAttribute : Bool) (c : Char) : List Char :=
  if c = '&' then "&amp;".data
  else if c.toNat = 160 then "&nbsp;".data
  else if inAttribute then (if c = '"' then "&quot;".data else [c])
  else if c = '<' then "&lt;".data
  else if c = '>' then "&gt;".data
  else [c]

def escapeString (inAttribute : Bool) (s : String) : String :=
  String.mk (s.data.flatMap (escapeChar inAttribute))

def serializeAttrs : List Attr → String
  | [] => ""
  | a :: rest => " " ++ a.name ++ "=\"" ++ escapeString true a.value ++ "\"" ++ serializeAttrs rest

mutual
/-- The HTML fragment serialisation of a node; with `shadow` set, an open
shadow root is written as a declarative template before the children.  `raw`
tells that the parent is a raw text element. -/
def serializeNode (shadow raw : Bool) : CNode → String
  | .element t a sr kids =>
    "<" ++ t ++ serializeAttrs a ++ ">" ++
      (if voidElements.contains t then ""
        else
          (match sr with
            | some skids =>
              if shadow then
                "<template shadowroot=\"open\">" ++ serializeNodes shadow false skids ++
                  "</template>"
              else ""
            | none => "") ++
          serializeNodes shadow (rawTextElements.contains t) kids ++ "</" ++ t ++ ">")
  | .text d => if raw then d else escapeString false d
  | .comment d => "<!--" ++ d ++ "-->"
def serializeNodes (shadow raw : Bool) : List CNode → String
  | [] => ""
  | n :: rest => serializeNode shadow raw n ++ serializeNodes shadow raw rest
end

def stdGetInnerHTML : CNode → String
  | .element t _ sr kids =>
    (match sr with
      | some skids => "<template shadowroot=\"open\">" ++ serializeNodes true false skids ++
          "</template>"
      | none => "") ++ serializeNodes true (rawTextElements.contains t) kids
  | _ => ""

def isIdentStart (c : Char) : Bool :=
  c.isAlpha || c = '_' || 128 ≤ c.toNat

def isIdentChar (c : Char) : Bool :=
  isIdentStart c || c.isDigit || c = '-'

def stdCssAttrValue (quoted : Bool) (s : String) : Option String :=
  if quoted then
    if s.data.any (fun c => c = '"' || c = '\\' || c.toNat = 10 || c.toNat = 12 || c.toNat = 13)
    then none else some s
  else
    match s.data with
    | [] => none
    | c :: rest => if isIdentStart c && rest.all isIdentChar then some s else none

/-- A browser that numbers the random strings, serialises markup by the HTML
fragment serialisation algorithm and accepts identifiers made of plain
characters in selectors. -/
def stdBrowser : Browser where
  random := fun k => "r" ++ toString k
  baseURI := "http://localhost/"
  baseHostname := "localhost"
  cssAttrValue := stdCssAttrValue
  parseTextarea := fun s => if s = "" then [] else [.text s]
  getInnerHTML := stdGetInnerHTML
  outerHTML := serializeNode false false
  styleMaxWidth := fun st =>
    match st with
    | none => "max-width: 100%;"
    | some s => s ++ " max-width: 100%;"

/-! ## Definitions used to state the properties -/

mutual
/-- Whether no node of the subtree has a shadow root. -/
def Node.noShadowRoots : Node → Bool
  | .element _ _ _ none _ kids => noShadowRootsL kids
  | .element _ _ _ (some _) _ _ => false
  | _ => true
def noShadowRootsL : List Node → Bool
  | [] => true
  | n :: rest => n.noShadowRoots && noShadowRootsL rest
end

mutual
/-- The clone has the shape of the source: each clone node is the shallow copy
of the source node at the same place (same kind, tag name, attributes and
values; for an element, the shadow root a fresh copy comes with and nothing
else), and its children are the copies of the source children, one for one and
in the same order. -/
def SameShape : Node → CNode → Prop
  | .element t a l _ _ kids, .element t2 a2 s2 kids2 =>
    t = t2 ∧ a = a2 ∧ s2 = l.ctorShadow ∧ SameShapeL kids kids2
  | .text d, .text d2 => d = d2
  | .comment d, .comment d2 => d = d2
  | _, _ => False
def SameShapeL : List Node → List CNode → Prop
  | [], [] => True
  | n :: rest, c :: rest2 => SameShape n c ∧ SameShapeL rest rest2
  | _, _ => False
end

/-- A source tree without shadow roots: a list with two items and a comment. -/
def sampleList : Node :=
  .element "ul" [⟨"class", "menu"⟩] {} none none
    [.element "li" [] {} none none [.text "one"], .comment "sep",
      .element "li" [⟨"id", "two"⟩] {} none none [.text "two"]]

mutual
/-- Nesting depth of the frame documents reachable from the node. -/
def Node.frameDepth : Node → Nat
  | .element _ _ _ _ none kids => frameDepthL kids
  | .element _ _ _ _ (some (.mk _ none)) kids => frameDepthL kids
  | .element _ _ _ _ (some (.mk _ (some root))) kids => max (root.frameDepth + 1) (frameDepthL kids)
  | .text _ => 0
  | .comment _ => 0
def frameDepthL : List Node → Nat
  | [] => 0
  | n :: rest => max n.frameDepth (frameDepthL rest)
end

def Document.frameDepth : Document → Nat
  | .mk _ none => 0
  | .mk _ (some root) => root.frameDepth

/-- The outcome is a value or an exception: the model did not run out of fuel. -/
def Res.Done {α : Type} (r : Res α) : Prop := r ≠ .outOfFuel

/-- The name the declaration is written with: the name of the doctype of the
document, `html` when the document has no doctype or the doctype no name. -/
def declaredName (dom : Option Document) : String :=
  match dom.bind Document.doctype with
  | none => "html"
  | some dt =>
    match dt.name with
    | none => "html"
    | some n => n

def declaredPublicId (dom : Option Document) : String :=
  match dom.bind Document.doctype with
  | none => ""
  | some dt => dt.publicId.getD ""

def declaredSystemId (dom : Option Document) : String :=
  match dom.bind Document.doctype with
  | none => ""
  | some dt => dt.systemId.getD ""

/-- The text after the name, by the four cases on the two identifiers. -/
def declaredSuffix (publicId systemId : String) : String :=
  match decide (publicId = ""), decide (systemId = "") with
  | false, false => " PUBLIC \"" ++ publicId ++ "\" \"" ++ systemId ++ "\""
  | false, true => " PUBLIC \"" ++ publicId ++ "\""
  | true, false => " SYSTEM \"" ++ systemId ++ "\""
  | true, true => ""

/-- A page declared with the standard doctype: a paragraph and nothing else. -/
def plainPage : Document :=
  .mk (some { name := some "html", publicId := some "", systemId := some "" })
    (some (.element "html" [⟨"lang", "en"⟩] {} none none
      [.element "head" [] {} none none [],
        .element "body" [] {} none none [.element "p" [] {} none none [.text "hello"]]]))

/-- The console after the catch block of `serializeDOM` logged `message`. -/
def logged (w : World) (message : Option String) : World :=
  { w with console := w.console ++ ["Could not transform the dom: " ++ message.getD "undefined"] }

/-- A transformation that sets an attribute on the root element and then throws
an `Error`. -/
def markThenThrow : Transformation := fun doc =>
  (doc.setAttribute "data-transformed" "yes", some (.other (some "boom")))

/-- A transformation that throws an `Error` before it touches the clone. -/
def throwAtOnce : Transformation := fun doc => (doc, some (.other (some "boom")))

/-- A transformation that executes `throw null`. -/
def throwNull : Transformation := fun doc => (doc, some .nullish)

inductive Disposition where
  | untouched
  | serialize
  | remove
deriving DecidableEq, Repr

/-- The decision table for a frame whose clone is not in the cloned head, from
the four facts: the inner document is accessible and non-empty, the frame is
script-authored, its load event has finished, JavaScript is enabled in the
output. -/
def disposition (accessible scriptAuthored loadFinished enableJavaScript : Bool) : Disposition :=
  match accessible with
  | true =>
    if enableJavaScript = true ∧ scriptAuthored = true then .untouched
    else if scriptAuthored = false ∧ loadFinished = false then .untouched
    else .serialize
  | false =>
    if enableJavaScript = false ∧ scriptAuthored = true then .remove
    else .untouched

/-- A loaded, same-origin frame with a static `src` whose document says hello;
the frame is already tagged. -/
def helloFrame : Node :=
  .element "iframe" [⟨"src", "/inner.html"⟩, ⟨"data-percy-element-id", "_f"⟩]
    { src := "http://localhost/inner.html", loadEventEnd := 1234 } none
    (some (.mk (some { name := some "html", publicId := some "", systemId := some "" })
      (some (.element "html" [] {} none none
        [.element "head" [] {} none none [],
          .element "body" [] {} none none [.text "hello"]]))))
    []

def helloPage : Document :=
  .mk (some { name := some "html", publicId := some "", systemId := some "" })
    (some (.element "html" [] {} none none
      [.element "head" [] {} none none [], .element "body" [] {} none none [helloFrame]]))

/-- The clone of `helloPage`. -/
def helloClone : MockDocument :=
  { documentElement := .element "html" [] none
      [.element "head" [] none [],
        .element "body" [] none
          [.element "iframe" [⟨"src", "/inner.html"⟩, ⟨"data-percy-element-id", "_f"⟩] none []]] }

/-- A page whose head holds a cross-origin frame. -/
def headFramePage : Document :=
  .mk (some { name := some "html", publicId := some "", systemId := some "" })
    (some (.element "html" [] {} none none
      [.element "head" [] {} none none
          [.element "iframe" [⟨"src", "https://ads.example/frame.html"⟩]
            { src := "https://ads.example/frame.html" } none none []],
        .element "body" [] {} none none []]))

/-- The mock document after cloning and `serializeFrames`, as `serializeDOM`
builds it (the two passes in between do not touch frames). -/
def clonedFrames (B : Browser) (fuel : Nat) (enableJavaScript : Option Bool) (dom : Document)
    (w : World) : Res (MockDocument × World) :=
  (cloneNodeAndShadow (prepareDOM B dom w).1).bind fun clone =>
    serializeFrames
      (fun inner w2 => serializeDOM B fuel
        { dom := inner, domTransformation := some (setBaseURI B),
          enableJavaScript := enableJavaScript } w2)
      B (enableJavaScript.getD false) (prepareDOM B dom w).1 (clone, (prepareDOM B dom w).2)

/-- The mock document after cloning and `serializeInputElements`, as
`serializeDOM` builds it. -/
def clonedInputs (B : Browser) (dom : Document) (w : World) : Res MockDocument :=
  (cloneNodeAndShadow (prepareDOM B dom w).1).bind
    (serializeInputElements B (prepareDOM B dom w).1)

/-- A checkbox whose markup says `checked` and which the user has unchecked. -/
def uncheckedBox : Node :=
  .element "input" [⟨"type", "checkbox"⟩, ⟨"checked", ""⟩]
    { type := "checkbox", checked := false } none none []

def uncheckedBoxPage : Document :=
  .mk (some { name := some "html", publicId := some "", systemId := some "" })
    (some (.element "html" [] {} none none
      [.element "head" [] {} none none [], .element "body" [] {} none none [uncheckedBox]]))

/-- A multiple select with three options: the first and the third are selected
now, the markup of the second says `selected`. -/
def staleSelect : Node :=
  .element "select" [⟨"multiple", ""⟩]
    { type := "select-multiple", selectedOptions := [0, 2] } none none
    [.element "option" [] {} none none [.text "a"],
      .element "option" [⟨"selected", ""⟩] {} none none [.text "b"],
      .element "option" [] {} none none [.text "c"]]

def staleSelectPage : Document :=
  .mk (some { name := some "html", publicId := some "", systemId := some "" })
    (some (.element "html" [] {} none none
      [.element "head" [] {} none none [], .element "body" [] {} none none [staleSelect]]))

/-- Indices of the children that carry the attribute `selected`. -/
def selectedIndices (options : List CNode) : List Nat :=
  (List.range options.length).filter fun i =>
    match options.get? i with
    | some c => hasAttribute c.attrs "selected"
    | none => false

/-- A cloned root element whose text holds two dollar signs. -/
def dollarRoot : CNode :=
  .element "html" [] none
    [.element "head" [] none [],
      .element "body" [] none [.element "p" [] none [.text "Total: $$"]]]

/-- A `javascript:` URL: the text begins with `javascript:`. -/
def isJavascriptURL (src : String) : Bool :=
  src.data.take 11 == ['j', 'a', 'v', 'a', 's', 'c', 'r', 'i', 'p', 't', ':']

/-- Script-authored in the narrow sense: `srcdoc` is empty and `src` is empty or
a `javascript:` URL. -/
def scriptAuthoredByURL (srcdoc src : String) : Bool :=
  srcdoc == "" && (src == "" || isJavascriptURL src)

/-- Script-authored in the wide sense: `srcdoc` is empty and `src` is empty, the
bare word `javascript`, or a `javascript:` URL. -/
def scriptAuthored (srcdoc src : String) : Bool :=
  srcdoc == "" && (src == "" || src == "javascript" || isJavascriptURL src)

/-- Whether the inner document of the frame is accessible and non-empty. -/
def frameAccessible (frame : Node) : Bool :=
  match frame.contentDocument with
  | some inner => inner.documentElement.isSome
  | none => false

/-- The disposition the table gives a frame, script-authored taken in the wide
sense. -/
def tableDisposition (enableJavaScript : Bool) (frame : Node) : Disposition :=
  disposition (frameAccessible frame) (scriptAuthored frame.live.srcdoc frame.live.src)
    (frame.live.loadEventEnd != 0) enableJavaScript

/-- The disposition the table gives a frame, script-authored taken in the
narrow sense. -/
def narrowDisposition (enableJavaScript : Bool) (frame : Node) : Disposition :=
  disposition (frameAccessible frame) (scriptAuthoredByURL frame.live.srcdoc frame.live.src)
    (frame.live.loadEventEnd != 0) enableJavaScript

/-- The tree with the node at `path` taken out of the child list of its parent;
the other children keep their order. -/
def erasedAt : List Nat → CNode → CNode
  | [], n => n
  | [i], .element t a s kids => .element t a s (kids.eraseIdx i)
  | i :: j :: q, .element t a s kids =>
    match kids[i]? with
    | some c => .element t a s (kids.set i (erasedAt (j :: q) c))
    | none => .element t a s kids
  | _ :: _, n => n

/-- The tree with the node at `path` replaced by `new`. -/
def replacedAt (new : CNode) : List Nat → CNode → CNode
  | [], _ => new
  | i :: p, .element t a s kids =>
    match kids[i]? with
    | some c => .element t a s (kids.set i (replacedAt new p c))
    | none => .element t a s kids
  | _ :: _, n => n

mutual
/-- Number of elements of the tree, shadow trees left out, whose
`data-percy-element-id` is `v`. -/
def CNode.carriers (v : String) : CNode → Nat
  | .element _ a _ kids =>
    (if getAttribute a "data-percy-element-id" = some v then 1 else 0) + carriersL v kids
  | _ => 0
def carriersL (v : String) : List CNode → Nat
  | [] => 0
  | n :: rest => n.carriers v + carriersL v rest
end

/-- Number of elements below the fragment whose `data-percy-element-id` is `v`. -/
def MockDocument.carriers (v : String) (m : MockDocument) : Nat :=
  if m.attached then m.documentElement.carriers v else 0

/-- The mock document once the node at `path` has left the tree below the
fragment. -/
def MockDocument.withoutNode (m : MockDocument) : List Nat → MockDocument
  | [] => { documentElement := m.documentElement, attached := false, head := m.head }
  | i :: p =>
    { documentElement := erasedAt (i :: p) m.documentElement, attached := m.attached,
      head := m.head }

/-- The mock document with the node at `path` replaced by `new`. -/
def MockDocument.withNode (m : MockDocument) (path : List Nat) (new : CNode) : MockDocument :=
  { documentElement := replacedAt new path m.documentElement, attached := m.attached,
    head := m.head }

/-- The disposition read off the tests the program makes (`builtWithJs`, the
test on `contentDocument`). -/
def frameBranch (enableJavaScript : Bool) (frame : Node) : Disposition :=
  disposition (accessibleDocument frame).isSome (builtWithJs frame)
    (frame.live.loadEventEnd != 0) enableJavaScript

/-- A cross-origin frame with a static `src`, carrying the identifier `dup`. -/
def staticFrame : Node :=
  .element "iframe" [⟨"src", "https://a.example/"⟩, ⟨"data-percy-element-id", "dup"⟩]
    { src := "https://a.example/" } none none []

/-- A frame without `src` whose document is not accessible, carrying the same
identifier `dup`. -/
def scriptedFrame : Node :=
  .element "iframe" [⟨"name", "b"⟩, ⟨"data-percy-element-id", "dup"⟩] {} none none []

/-- A page whose two frames carry the same identifier. -/
def sharedIdPage : Document :=
  .mk (some { name := some "html", publicId := some "", systemId := some "" })
    (some (.element "html" [] {} none none
      [.element "head" [] {} none none [],
        .element "body" [] {} none none [staticFrame, scriptedFrame]]))

/-- A loaded frame whose `src` property is the bare word `javascript` and whose
document is accessible. -/
def bareWordFrame : Node :=
  .element "iframe" [⟨"src", "javascript"⟩, ⟨"data-percy-element-id", "_b"⟩]
    { src := "javascript", loadEventEnd := 7 } none
    (some (.mk none
      (some (.element "html" [] {} none none
        [.element "head" [] {} none none [], .element "body" [] {} none none []]))))
    []

def bareWordPage : Document :=
  .mk (some { name := some "html", publicId := some "", systemId := some "" })
    (some (.element "html" [] {} none none
      [.element "head" [] {} none none [], .element "body" [] {} none none [bareWordFrame]]))

/-- The attributes `a2` of an element of kind `t` after tagging, from its
attributes `a` before: an element of one of the `kinds` without a truthy
identifier gets a truthy one and keeps its other attributes in order; the
attributes of every other element stay as they are. -/
def IdAdded (kinds : List String) (t : String) (a a2 : List Attr) : Prop :=
  if t ∈ kinds ∧ truthy (getAttribute a "data-percy-element-id") = false then
    truthy (getAttribute a2 "data-percy-element-id") = true ∧
      a2.filter (fun x => x.name != "data-percy-element-id") =
        a.filter (fun x => x.name != "data-percy-element-id")
  else a2 = a

mutual
/-- The second tree is the first with identifiers added to the elements of the
`kinds` in it: same nodes in the same places, same runtime state, shadow roots
and frame documents, and attributes related by `IdAdded`. -/
def TaggedFrom (kinds : List String) : Node → Node → Prop
  | .element t a l s d kids, .element t2 a2 l2 s2 d2 kids2 =>
    t2 = t ∧ IdAdded kinds t a a2 ∧ l2 = l ∧ s2 = s ∧ d2 = d ∧ TaggedFromL kinds kids kids2
  | .text x, .text y => y = x
  | .comment x, .comment y => y = x
  | _, _ => False
def TaggedFromL (kinds : List String) : List Node → List Node → Prop
  | [], [] => True
  | n :: rest, n2 :: rest2 => TaggedFrom kinds n n2 ∧ TaggedFromL kinds rest rest2
  | _, _ => False
end

def DocumentTaggedFrom (kinds : List String) : Document → Document → Prop
  | .mk dt none, .mk dt2 none => dt2 = dt
  | .mk dt (some root), .mk dt2 (some root2) => dt2 = dt ∧ TaggedFrom kinds root root2
  | _, _ => False

mutual
/-- Whether every element of the `kinds` in the tree below the node, the node
included and shadow trees and frame documents left out, carries a truthy
identifier. -/
def Node.allCarryId (kinds : List String) : Node → Bool
  | .element t a _ _ _ kids =>
    (!kinds.contains t || truthy (getAttribute a "data-percy-element-id")) &&
      allCarryIdL kinds kids
  | _ => true
def allCarryIdL (kinds : List String) : List Node → Bool
  | [] => true
  | n :: rest => n.allCarryId kinds && allCarryIdL kinds rest
end

def Document.allCarryId (kinds : List String) : Document → Bool
  | .mk _ none => true
  | .mk _ (some root) => root.allCarryId kinds

mutual
/-- Elements of the subtree in tree order, shadow trees included. -/
def Node.shadowInclusiveElements : Node → List Node
  | .element t a l none d kids => .element t a l none d kids :: shadowInclusiveElementsL kids
  | .element t a l (some (.mk sheets skids)) d kids =>
    .element t a l (some (.mk sheets skids)) d kids ::
      (shadowInclusiveElementsL skids ++ shadowInclusiveElementsL kids)
  | _ => []
def shadowInclusiveElementsL : List Node → List Node
  | [] => []
  | n :: rest => n.shadowInclusiveElements ++ shadowInclusiveElementsL rest
end

def Document.shadowInclusiveElements : Document → List Node
  | .mk _ none => []
  | .mk _ (some root) => root.shadowInclusiveElements

/-- A page whose body holds a shadow host; the shadow tree holds a text input. -/
def shadowHostPage : Document :=
  .mk (some { name := some "html", publicId := some "", systemId := some "" })
    (some (.element "html" [] {} none none
      [.element "head" [] {} none none [],
        .element "body" [] {} none none
          [.element "x-field" [] {}
            (some (.mk [] [.element "input" [⟨"type", "text"⟩] { type := "text" } none none []]))
            none []]]))

end PercyDOM

namespace PercyDOM

/-! ## Lemmas on attributes -/

theorem getAttribute_setAttribute (attrs : List Attr) (n v : String) :
    getAttribute (setAttribute attrs n v) n = some v := by
  induction attrs with
  | nil => simp [setAttribute, getAttribute]
  | cons a rest ih =>
    by_cases h : a.name = n
    · simp [setAttribute, getAttribute, h]
    · simp [setAttribute, getAttribute, h, ih]

theorem truthy_uid (B : Browser) (w : World) : truthy (some (uid B w).1) = true := by
  have h : ("_" ++ B.random w.calls) ≠ "" := by
    intro h
    have := congrArg String.length h
    simp only [String.length_append] at this
    have h1 : "_".length = 1 := by decide
    have h0 : "".length = 0 := by decide
    omega
  simpa [truthy, uid] using h

/-! ## `prepareDOM` -/

theorem prepareElement_truthy (B : Browser) (attrs : List Attr) (w : World) :
    truthy (getAttribute (prepareElement B attrs w).1 percyElementIdAttr) = true := by
  unfold prepareElement
  by_cases h : truthy (getAttribute attrs percyElementIdAttr) = true
  · simp [h]
  · simp [h, getAttribute_setAttribute, truthy_uid]

theorem prepareElement_of_truthy (B : Browser) (attrs : List Attr) (w : World)
    (h : truthy (getAttribute attrs percyElementIdAttr) = true) :
    prepareElement B attrs w = (attrs, w) := by
  simp [prepareElement, h]

mutual
theorem prepareNode_again (B B2 : Browser) :
    ∀ (n : Node) (w w2 : World), prepareNode B2 (prepareNode B n w).1 w2 = ((prepareNode B n w).1, w2)
  | .element t a l s d kids, w, w2 => by
    by_cases ht : tagWorthy.contains t = true
    · simp only [prepareNode, ht, if_true]
      rw [prepareElement_of_truthy B2 _ w2 (prepareElement_truthy B a w)]
      simp only [prepareList_again B B2 kids]
    · simp only [prepareNode, ht]
      simp only [prepareList_again B B2 kids]
      simp
  | .text _, _, _ => by simp [prepareNode]
  | .comment _, _, _ => by simp [prepareNode]
theorem prepareList_again (B B2 : Browser) :
    ∀ (l : List Node) (w w2 : World), prepareList B2 (prepareList B l w).1 w2 = ((prepareList B l w).1, w2)
  | [], _, _ => by simp [prepareList]
  | n :: rest, w, w2 => by
    simp only [prepareList, prepareNode_again B B2 n, prepareList_again B B2 rest]
end

/-! ## `deepClone` -/

theorem prependAdopted_eq (sheets : List (List String)) (acc : List CNode) :
    prependAdopted sheets acc = (sheets.map adoptedStyle).reverse ++ acc := by
  induction sheets generalizing acc with
  | nil => simp [prependAdopted]
  | cons sh rest ih => simp [prependAdopted, ih]

theorem walkTree_eq_map (l : List Node) : walkTree l = l.map cloneNode := by
  induction l with
  | nil => simp [walkTree]
  | cons n rest ih => simp [walkTree, ih]

mutual
theorem cloneNode_sameShape : ∀ (n : Node), n.noShadowRoots = true → SameShape n (cloneNode n)
  | .element t a l none d kids, h => by
    simp only [Node.noShadowRoots] at h
    simp only [cloneNode, SameShape, true_and]
    exact walkTree_sameShape kids h
  | .element t a l (some sr) d kids, h => by simp [Node.noShadowRoots] at h
  | .text _, _ => by simp [cloneNode, SameShape]
  | .comment _, _ => by simp [cloneNode, SameShape]
theorem walkTree_sameShape : ∀ (l : List Node), noShadowRootsL l = true → SameShapeL l (walkTree l)
  | [], _ => by simp [walkTree, SameShapeL]
  | n :: rest, h => by
    simp only [noShadowRootsL, Bool.and_eq_true] at h
    simp only [walkTree, SameShapeL]
    exact ⟨cloneNode_sameShape n h.1, walkTree_sameShape rest h.2⟩
end

/-- C5. For a source subtree without shadow roots, the fragment `deepClone`
returns has exactly one child, and that child has the shape of `host`: every
clone node is the shallow copy of its source node and the children of every
clone node are the clones of the source children, as many and in the same
order. -/
theorem deepClone_sameShape (host : Node) (h : host.noShadowRoots = true) :
    ∃ c, deepClone host = [c] ∧ SameShape host c :=
  ⟨cloneNode host, rfl, cloneNode_sameShape host h⟩

theorem deepClone_sameShape_witness :
    sampleList.noShadowRoots = true ∧ ∃ c, deepClone sampleList = [c] ∧ SameShape sampleList c :=
  ⟨by decide, deepClone_sameShape sampleList (by decide)⟩

/-- C6. The clone of an element with a shadow root has a shadow root whose
children are one style element per adopted style sheet, each with a single text
node holding the rule texts joined by newlines, in reverse adoption order,
followed by the clones of the children of the source shadow root in their
order; with no adopted style sheet the children of the clone shadow root are
just those clones.  This holds whatever shadow root a fresh copy of the element
came with (`l.ctorShadow`). -/
theorem cloneNode_shadowRoot (t : String) (a : List Attr) (l : Live)
    (sheets : List (List String)) (skids : List Node) (d : Option Document) (kids : List Node) :
    (cloneNode (.element t a l (some (.mk sheets skids)) d kids)).shadowRoot =
        some ((sheets.reverse.map fun rules =>
            CNode.element "style" [] none [.text ("\n".intercalate rules)]) ++
          skids.map cloneNode) ∧
      (cloneNode (.element t a l (some (.mk [] skids)) d kids)).shadowRoot =
        some (skids.map cloneNode) := by
  have hempty : emptiedShadow l.ctorShadow = [] := by cases l.ctorShadow <;> rfl
  refine ⟨?_, ?_⟩
  · simp only [cloneNode, CNode.shadowRoot, prependAdopted_eq, hempty, walkTree_eq_map,
      List.append_nil, List.map_reverse]
    rfl
  · simp only [cloneNode, CNode.shadowRoot, prependAdopted, hempty, walkTree_eq_map,
      List.nil_append]

/-! ## Termination of the model: enough fuel for the frame nesting -/

theorem Res.done_ok {α : Type} (a : α) : (Res.ok a).Done := by simp [Res.Done]

theorem Res.done_throw {α : Type} (e : Thrown) : (Res.throw e : Res α).Done := by
  simp [Res.Done]

theorem Res.done_bind {α β : Type} {r : Res α} {f : α → Res β} (hr : r.Done)
    (hf : ∀ a, r = .ok a → (f a).Done) : (r.bind f).Done := by
  cases r with
  | ok a => exact hf a rfl
  | throw e => simp [Res.bind, Res.Done]
  | outOfFuel => exact absurd rfl hr

theorem forEachM_done {α σ : Type} (f : α → σ → Res σ) (xs : List α)
    (h : ∀ x ∈ xs, ∀ s, (f x s).Done) : ∀ s, (forEachM f xs s).Done := by
  induction xs with
  | nil => intro s; exact Res.done_ok s
  | cons x rest ih =>
    intro s
    simp only [forEachM]
    exact Res.done_bind (h x (List.mem_cons_self x rest) s)
      (fun a _ => ih (fun y hy => h y (List.mem_cons_of_mem x hy)) a)

theorem withClone_done (cloneEl : Option (List Nat)) (f : List Nat → Res MockDocument)
    (h : ∀ p, (f p).Done) : (withClone cloneEl f).Done := by
  cases cloneEl with
  | none => exact Res.done_throw _
  | some p => exact h p

theorem querySelectorId_done (B : Browser) (q : Bool) (id : Option String) (m : MockDocument) :
    (m.querySelectorId B q id).Done := by
  unfold MockDocument.querySelectorId
  split
  · exact Res.done_throw _
  · exact Res.done_ok _

theorem markSelected_done (m : MockDocument) (cloneEl : Option (List Nat)) (index : Nat) :
    (markSelected m cloneEl index).Done := by
  unfold markSelected
  apply withClone_done
  intro p
  split
  · exact Res.done_throw _
  · split
    · split
      · exact Res.done_throw _
      · exact Res.done_ok _
    · exact Res.done_throw _

theorem serializeInputElement_done (B : Browser) (elem : Node) (clone : MockDocument) :
    (serializeInputElement B elem clone).Done := by
  unfold serializeInputElement
  apply Res.done_bind (querySelectorId_done _ _ _ _)
  intro cloneEl _
  split
  · split
    · exact withClone_done _ _ (fun _ => Res.done_ok _)
    · exact Res.done_ok _
  · split
    · split
      · exact markSelected_done _ _ _
      · exact Res.done_ok _
    · split
      · exact forEachM_done _ _ (fun _ _ _ => markSelected_done _ _ _) _
      · split
        · exact withClone_done _ _ (fun _ => Res.done_ok _)
        · exact withClone_done _ _ (fun _ => Res.done_ok _)

theorem serializeVideo_done (B : Browser) (video : Node) (clone : MockDocument) :
    (serializeVideo B video clone).Done := by
  unfold serializeVideo
  split
  · exact Res.done_ok _
  · apply Res.done_bind (querySelectorId_done _ _ _ _)
    intro cloneEl _
    split
    · exact Res.done_ok _
    · split
      · exact Res.done_ok _
      · exact withClone_done _ _ (fun _ => Res.done_ok _)

theorem serializeStyleSheet_done (entry : StyleSheet × Node) (clone : MockDocument) :
    (serializeStyleSheet entry clone).Done := by
  unfold serializeStyleSheet
  split
  · exact Res.done_throw _
  · exact Res.done_ok _

theorem serializeCanvasElement_done (B : Browser) (canvas : Node) (clone : MockDocument) :
    (serializeCanvasElement B canvas clone).Done := by
  unfold serializeCanvasElement
  split
  · exact Res.done_throw _
  · split
    · exact Res.done_ok _
    · apply Res.done_bind (querySelectorId_done _ _ _ _)
      intro cloneEl _
      apply withClone_done
      intro p
      split
      · exact Res.done_throw _
      · exact Res.done_ok _

theorem assemble_done (B : Browser) (dom : Document) (t : Option Transformation)
    (clone : MockDocument) (w : World) : (assemble B dom t clone w).Done := by
  unfold assemble
  split
  · exact Res.done_ok _
  · simp only
    split
    · exact Res.done_ok _
    · exact Res.done_throw _
    · exact Res.done_ok _

theorem cloneNodeAndShadow_done (dom : Document) : (cloneNodeAndShadow dom).Done := by
  unfold cloneNodeAndShadow
  split
  · exact Res.done_throw _
  · split
    · exact Res.done_ok _
    · exact Res.done_throw _

mutual
theorem prepareNode_frameDepth (B : Browser) :
    ∀ (n : Node) (w : World), (prepareNode B n w).1.frameDepth = n.frameDepth
  | .element t a l s none kids, w => by
    simp only [prepareNode, Node.frameDepth, prepareList_frameDepth B kids]
  | .element t a l s (some (.mk _ none)) kids, w => by
    simp only [prepareNode, Node.frameDepth, prepareList_frameDepth B kids]
  | .element t a l s (some (.mk _ (some root))) kids, w => by
    simp only [prepareNode, Node.frameDepth, prepareList_frameDepth B kids]
  | .text _, _ => by simp [prepareNode]
  | .comment _, _ => by simp [prepareNode]
theorem prepareList_frameDepth (B : Browser) :
    ∀ (l : List Node) (w : World), frameDepthL (prepareList B l w).1 = frameDepthL l
  | [], _ => by simp [prepareList]
  | n :: rest, w => by
    simp only [prepareList, frameDepthL, prepareNode_frameDepth B n, prepareList_frameDepth B rest]
end

theorem prepareDOM_frameDepth (B : Browser) (dom : Document) (w : World) :
    (prepareDOM B dom w).1.frameDepth = dom.frameDepth := by
  cases dom with
  | mk dt root =>
    cases root with
    | none => simp [prepareDOM, Document.frameDepth]
    | some r => simp [prepareDOM, Document.frameDepth, prepareNode_frameDepth]

theorem frameDepthL_le_element (t : String) (a : List Attr) (l : Live) (s : Option ShadowRoot)
    (d : Option Document) (kids : List Node) :
    frameDepthL kids ≤ (Node.element t a l s d kids).frameDepth := by
  cases d with
  | none => simp [Node.frameDepth]
  | some doc =>
    cases doc with
    | mk dt root =>
      cases root with
      | none => simp [Node.frameDepth]
      | some r => simp [Node.frameDepth]

mutual
theorem mem_elements_frameDepth :
    ∀ (n e : Node), e ∈ n.elements → e.frameDepth ≤ n.frameDepth
  | .element t a l s d kids, e, h => by
    simp only [Node.elements, List.mem_cons] at h
    rcases h with h | h
    · rw [h]
    · exact Nat.le_trans (mem_elementsL_frameDepth kids e h) (frameDepthL_le_element t a l s d kids)
  | .text _, e, h => by simp [Node.elements] at h
  | .comment _, e, h => by simp [Node.elements] at h
theorem mem_elementsL_frameDepth :
    ∀ (l : List Node) (e : Node), e ∈ elementsL l → e.frameDepth ≤ frameDepthL l
  | [], e, h => by simp [elementsL] at h
  | n :: rest, e, h => by
    simp only [elementsL, List.mem_append] at h
    simp only [frameDepthL]
    rcases h with h | h
    · exact Nat.le_trans (mem_elements_frameDepth n e h) (Nat.le_max_left _ _)
    · exact Nat.le_trans (mem_elementsL_frameDepth rest e h) (Nat.le_max_right _ _)
end

theorem accessibleDocument_frameDepth (frame : Node) (inner : Document)
    (h : accessibleDocument frame = some inner) : inner.frameDepth + 1 ≤ frame.frameDepth := by
  cases frame with
  | element t a l s d kids =>
    cases d with
    | none => simp [accessibleDocument, Node.contentDocument] at h
    | some doc =>
      cases doc with
      | mk dt root =>
        cases root with
        | none => simp [accessibleDocument, Node.contentDocument] at h
        | some r =>
          simp only [accessibleDocument, Node.contentDocument, Option.some.injEq] at h
          subst h
          simp [Node.frameDepth, Document.frameDepth]
  | text _ => simp [accessibleDocument, Node.contentDocument] at h
  | comment _ => simp [accessibleDocument, Node.contentDocument] at h

theorem mem_querySelectorAll_frameDepth (tags : List String) (dom : Document) (e : Node)
    (h : e ∈ dom.querySelectorAll tags) : e.frameDepth ≤ dom.frameDepth := by
  cases dom with
  | mk dt root =>
    cases root with
    | none => simp [Document.querySelectorAll, Document.documentElement] at h
    | some r =>
      simp only [Document.querySelectorAll, Document.documentElement, List.mem_filter] at h
      exact mem_elements_frameDepth r e h.1

theorem serializeFrame_done (recur : Document → World → Res (String × World)) (B : Browser)
    (js : Bool) (frame : Node) (st : MockDocument × World)
    (h : ∀ inner w, accessibleDocument frame = some inner → (recur inner w).Done) :
    (serializeFrame recur B js frame st).Done := by
  unfold serializeFrame
  apply Res.done_bind (querySelectorId_done _ _ _ _)
  intro cloneEl _
  split
  · exact Res.done_bind (withClone_done _ _ (fun _ => Res.done_ok _)) (fun _ _ => Res.done_ok _)
  · split
    · rename_i inner hin
      split
      · exact Res.done_ok _
      · split
        · exact Res.done_ok _
        · exact Res.done_bind (h inner st.2 hin) (fun _ _ =>
            Res.done_bind (withClone_done _ _ (fun _ => Res.done_ok _)) (fun _ _ => Res.done_ok _))
    · split
      · exact Res.done_bind (withClone_done _ _ (fun _ => Res.done_ok _))
          (fun _ _ => Res.done_ok _)
      · exact Res.done_ok _

theorem materialize_done (recur : Document → World → Res (String × World)) (B : Browser)
    (js : Bool) (dom : Document) (w : World)
    (h : ∀ inner w2, inner.frameDepth + 1 ≤ dom.frameDepth → (recur inner w2).Done) :
    (materialize recur B js dom w).Done := by
  unfold materialize
  apply Res.done_bind (cloneNodeAndShadow_done dom)
  intro clone _
  apply Res.done_bind (forEachM_done _ _ (fun _ _ _ => serializeInputElement_done _ _ _) _)
  intro clone2 _
  apply Res.done_bind
  · unfold serializeFrames
    apply forEachM_done
    intro frame hf st
    apply serializeFrame_done
    intro inner w2 hacc
    exact h inner w2 (Nat.le_trans (accessibleDocument_frameDepth frame inner hacc)
      (mem_querySelectorAll_frameDepth _ dom frame hf))
  · intro st _
    apply Res.done_bind (forEachM_done _ _ (fun _ _ _ => serializeVideo_done _ _ _) _)
    intro clone3 _
    apply Res.done_bind
    · split
      · exact Res.done_bind (forEachM_done _ _ (fun _ _ _ => serializeStyleSheet_done _ _) _)
          (fun _ _ => forEachM_done _ _ (fun _ _ _ => serializeCanvasElement_done _ _ _) _)
      · exact Res.done_ok _
    · intro _ _
      exact Res.done_ok _

/-- With more fuel than the frame nesting depth of the document, `serializeDOM`
returns a string or throws: the model does not run out of fuel. -/
theorem serializeDOM_done (B : Browser) :
    ∀ (fuel : Nat) (options : Options) (w : World),
      options.dom.frameDepth < fuel → (serializeDOM B fuel options w).Done
  | 0, _, _, h => absurd h (Nat.not_lt_zero _)
  | fuel + 1, options, w, h => by
    simp only [serializeDOM]
    apply Res.done_bind
    · apply materialize_done
      intro inner w2 hin
      apply serializeDOM_done B fuel
      rw [prepareDOM_frameDepth] at hin
      simp only
      omega
    · intro st _
      exact assemble_done _ _ _ _ _

/-! ## `doctype` and the leading characters of the result -/

theorem Res.bind_eq_ok {α β : Type} {r : Res α} {f : α → Res β} {b : β}
    (h : r.bind f = .ok b) : ∃ a, r = .ok a ∧ f a = .ok b := by
  cases r with
  | ok a => exact ⟨a, rfl, h⟩
  | throw e => simp [Res.bind] at h
  | outOfFuel => simp [Res.bind] at h

theorem doctype_eq (dom : Option Document) :
    doctype dom = "<!DOCTYPE " ++ declaredName dom ++
      declaredSuffix (declaredPublicId dom) (declaredSystemId dom) ++ ">" := by
  unfold doctype declaredName declaredPublicId declaredSystemId declaredSuffix
  cases h : dom.bind Document.doctype with
  | none => simp [Option.getD]
  | some dt =>
    cases hn : dt.name <;> by_cases hp : dt.publicId.getD "" = "" <;>
      by_cases hs : dt.systemId.getD "" = "" <;> simp [Option.getD, hp, hs, hn] <;>
      simp [Option.getD] at hp hs <;> simp [hp, hs]

theorem prepareDOM_doctype (B : Browser) (dom : Document) (w : World) :
    (prepareDOM B dom w).1.doctype = dom.doctype := by
  cases dom with
  | mk dt root => cases root <;> rfl

theorem doctype_congr (d1 d2 : Document) (h : d1.doctype = d2.doctype) :
    doctype (some d1) = doctype (some d2) := by
  simp [doctype, h]

theorem assemble_eq_ok (B : Browser) (dom : Document) (t : Option Transformation)
    (clone : MockDocument) (w : World) (s : String) (w2 : World)
    (h : assemble B dom t clone w = .ok (s, w2)) :
    ∃ doc, s = doctype (some dom) ++ getOuterHTML B doc := by
  unfold assemble at h
  split at h
  · simp only [Res.ok.injEq, Prod.mk.injEq] at h
    exact ⟨_, h.1.symm⟩
  · simp only at h
    split at h
    · simp only [Res.ok.injEq, Prod.mk.injEq] at h
      exact ⟨_, h.1.symm⟩
    · simp at h
    · simp only [Res.ok.injEq, Prod.mk.injEq] at h
      exact ⟨_, h.1.symm⟩

theorem serializeDOM_eq_ok (B : Browser) (fuel : Nat) (options : Options) (w : World)
    (s : String) (w2 : World) (h : serializeDOM B fuel options w = .ok (s, w2)) :
    ∃ doc, s = doctype (some options.dom) ++ getOuterHTML B doc := by
  cases fuel with
  | zero => simp [serializeDOM] at h
  | succ fuel =>
    simp only [serializeDOM] at h
    obtain ⟨st, _, hst⟩ := Res.bind_eq_ok h
    obtain ⟨doc, hdoc⟩ := assemble_eq_ok _ _ _ _ _ _ _ hst
    refine ⟨doc, ?_⟩
    rw [hdoc, doctype_congr _ _ (prepareDOM_doctype B options.dom w)]

/-- C7. `doctype(dom)` is `<!DOCTYPE `, the name, the suffix and `>`, the name
being the doctype name of the document, or `html` when the document has no
doctype or the doctype no name, and the suffix being the `PUBLIC` form with both
identifiers, the `PUBLIC` form with the public identifier, the `SYSTEM` form
with the system identifier, or nothing, according to which identifiers are
non-empty.  Every string `serializeDOM` returns begins with `doctype(dom)`; for
a document declared `html` without identifiers it begins with
`<!DOCTYPE html>`.  With more fuel than the frame nesting depth the call does
return or throw. -/
theorem serializeDOM_leads_with_doctype (B : Browser) (fuel : Nat) (options : Options)
    (w : World) :
    (∀ dom, doctype dom = "<!DOCTYPE " ++ declaredName dom ++
        declaredSuffix (declaredPublicId dom) (declaredSystemId dom) ++ ">") ∧
      (∀ s w2, serializeDOM B fuel options w = .ok (s, w2) →
        ∃ rest, s = doctype (some options.dom) ++ rest) ∧
      (∀ s w2, serializeDOM B fuel options w = .ok (s, w2) →
        declaredName (some options.dom) = "html" →
        declaredPublicId (some options.dom) = "" →
        declaredSystemId (some options.dom) = "" →
        ∃ rest, s = "<!DOCTYPE html>" ++ rest) ∧
      (options.dom.frameDepth < fuel → (serializeDOM B fuel options w).Done) := by
  refine ⟨doctype_eq, ?_, ?_, serializeDOM_done B fuel options w⟩
  · intro s w2 h
    obtain ⟨doc, hdoc⟩ := serializeDOM_eq_ok B fuel options w s w2 h
    exact ⟨_, hdoc⟩
  · intro s w2 h hn hp hs
    obtain ⟨doc, hdoc⟩ := serializeDOM_eq_ok B fuel options w s w2 h
    refine ⟨getOuterHTML B doc, ?_⟩
    rw [hdoc, doctype_eq, hn, hp, hs]
    rfl

theorem serializeDOM_leads_with_doctype_witness :
    serializeDOM stdBrowser 1 { dom := plainPage } {} =
        .ok ("<!DOCTYPE html><html lang=\"en\"><head></head><body><p>hello</p></body></html>",
          {}) ∧
      (∃ rest, "<!DOCTYPE html><html lang=\"en\"><head></head><body><p>hello</p></body></html>" =
        "<!DOCTYPE html>" ++ rest) ∧
      (serializeDOM stdBrowser 1 { dom := plainPage } {}).Done :=
  ⟨by rfl,
    (serializeDOM_leads_with_doctype stdBrowser 1 { dom := plainPage } {}).2.2.1 _ _ (by rfl)
      (by rfl) (by rfl) (by rfl),
    (serializeDOM_leads_with_doctype stdBrowser 1 { dom := plainPage } {}).2.2.2 (by decide)⟩

/-! ## A `domTransformation` that throws -/

/-- C9, as stated, fails: a transformation that changed the clone before it
threw leaves its change in the string `serializeDOM` returns, which then differs
from the string returned when no transformation is given. -/
theorem transformation_change_survives_throw :
    serializeDOM stdBrowser 1 { dom := plainPage, domTransformation := some markThenThrow } {} =
        .ok ("<!DOCTYPE html><html lang=\"en\" data-transformed=\"yes\"><head></head><body><p>hello</p></body></html>",
          { calls := 0, console := ["Could not transform the dom: boom"] }) ∧
      serializeDOM stdBrowser 1 { dom := plainPage } {} =
        .ok ("<!DOCTYPE html><html lang=\"en\"><head></head><body><p>hello</p></body></html>",
          {}) ∧
      "<!DOCTYPE html><html lang=\"en\" data-transformed=\"yes\"><head></head><body><p>hello</p></body></html>" ≠
        "<!DOCTYPE html><html lang=\"en\"><head></head><body><p>hello</p></body></html>" :=
  ⟨by rfl, by rfl, by decide⟩

/-- When the transformation executes `throw null`, reading `err.message` in the
catch block throws in turn and `serializeDOM` propagates that exception. -/
theorem transformation_throw_null_propagates :
    serializeDOM stdBrowser 1 { dom := plainPage, domTransformation := some throwNull } {} =
      .throw (typeError "Cannot read properties of null (reading message)") := by
  rfl

theorem assemble_of_throws (B : Browser) (dom : Document) (t : Transformation)
    (clone : MockDocument) (w : World) (m : Option String)
    (h : (t clone.documentElement).2 = some (.other m)) :
    assemble B dom (some t) clone w =
      .ok (doctype (some dom) ++ getOuterHTML B (t clone.documentElement).1, logged w m) := by
  simp only [assemble, h, logged]

/-- C9, amended. Let `domTransformation` throw a value other than `null` or
`undefined` on whatever root element it is given.  Then `serializeDOM` does not
propagate that exception.  If the call without transformation returns a string,
that string is `doctype(dom)` followed by `getOuterHTML` of the untransformed
root element `doc`, and the call with the transformation returns `doctype(dom)`
followed by `getOuterHTML` of what the transformation left of `doc`, with the
failure logged; when the transformation left `doc` as it was, the two strings
are equal.  If the call without transformation throws or runs out of fuel, so
does the call with it, in the same way. -/
theorem serializeDOM_transformation_throws (B : Browser) (fuel : Nat) (options : Options)
    (t : Transformation) (w : World)
    (hnone : options.domTransformation = none) (halias : options.dom_transformation = none)
    (ht : ∀ doc, ∃ m, (t doc).2 = some (.other m)) :
    (∀ s w2, serializeDOM B fuel options w = .ok (s, w2) →
      ∃ doc m, s = doctype (some options.dom) ++ getOuterHTML B doc ∧
        (t doc).2 = some (.other m) ∧
        serializeDOM B fuel { options with domTransformation := some t } w =
          .ok (doctype (some options.dom) ++ getOuterHTML B (t doc).1, logged w2 m) ∧
        ((t doc).1 = doc →
          serializeDOM B fuel { options with domTransformation := some t } w =
            .ok (s, logged w2 m))) ∧
      (∀ e, serializeDOM B fuel options w = .throw e →
        serializeDOM B fuel { options with domTransformation := some t } w = .throw e) ∧
      (serializeDOM B fuel options w = .outOfFuel →
        serializeDOM B fuel { options with domTransformation := some t } w = .outOfFuel) := by
  cases fuel with
  | zero => simp [serializeDOM]
  | succ fuel =>
    simp only [serializeDOM, hnone, halias, Option.orElse]
    cases hm : materialize (fun inner w2 => serializeDOM B fuel
        { dom := inner, domTransformation := some (setBaseURI B),
          enableJavaScript := (options.enableJavaScript.orElse fun _ =>
            options.enable_javascript) } w2) B
        ((options.enableJavaScript.orElse fun _ => options.enable_javascript).getD false)
        (prepareDOM B options.dom w).1 (prepareDOM B options.dom w).2 with
    | ok st =>
      simp only [Option.orElse] at hm
      simp only [hm, Res.bind]
      obtain ⟨m, hmsg⟩ := ht st.1.documentElement
      have hd := doctype_congr _ _ (prepareDOM_doctype B options.dom w)
      refine ⟨?_, ?_, ?_⟩
      · intro s w2 h
        simp only [assemble, Res.ok.injEq, Prod.mk.injEq] at h
        refine ⟨st.1.documentElement, m, ?_, hmsg, ?_, ?_⟩
        · rw [← h.1, hd]
        · rw [assemble_of_throws B _ t st.1 st.2 m hmsg, hd, h.2]
        · intro hsame
          rw [assemble_of_throws B _ t st.1 st.2 m hmsg, hsame, h.2, ← h.1]
      · intro e h
        simp [assemble] at h
      · intro h
        simp [assemble] at h
    | throw e =>
      simp only [Option.orElse] at hm
      simp [hm, Res.bind]
    | outOfFuel =>
      simp only [Option.orElse] at hm
      simp [hm, Res.bind]

theorem serializeDOM_transformation_throws_witness :
    (∀ doc, ∃ m, (throwAtOnce doc).2 = some (.other m)) ∧
      serializeDOM stdBrowser 1 { dom := plainPage } {} =
        .ok ("<!DOCTYPE html><html lang=\"en\"><head></head><body><p>hello</p></body></html>",
          {}) ∧
      ∃ doc m, "<!DOCTYPE html><html lang=\"en\"><head></head><body><p>hello</p></body></html>" =
          doctype (some plainPage) ++ getOuterHTML stdBrowser doc ∧
        (throwAtOnce doc).2 = some (.other m) ∧
        serializeDOM stdBrowser 1 { dom := plainPage, domTransformation := some throwAtOnce } {} =
          .ok (doctype (some plainPage) ++ getOuterHTML stdBrowser (throwAtOnce doc).1,
            logged {} m) ∧
        ((throwAtOnce doc).1 = doc →
          serializeDOM stdBrowser 1 { dom := plainPage, domTransformation := some throwAtOnce } {} =
            .ok ("<!DOCTYPE html><html lang=\"en\"><head></head><body><p>hello</p></body></html>",
              logged {} m)) :=
  ⟨fun _ => ⟨some "boom", rfl⟩, by rfl,
    (serializeDOM_transformation_throws stdBrowser 1 { dom := plainPage } throwAtOnce {} rfl rfl
      (fun _ => ⟨some "boom", rfl⟩)).1 _ _ (by rfl)⟩

/-! ## The dispositions of `serializeFrames` -/

/-- The test of `builtWithJs` on `src` accepts `javascript:` URLs. -/
theorem builtWithJs_javascript_url :
    builtWithJs (.element "iframe" [] { src := "javascript:void(0)" } none none []) = true ∧
      builtWithJs (.element "iframe" [] { src := "https://example.com/a" } none none []) = false ∧
      builtWithJs (.element "iframe" [] {} none none []) = true ∧
      builtWithJs (.element "iframe" [] { srcdoc := "<p>x</p>" } none none []) = false := by
  decide

/-- Recursive frame containment on `helloPage`: the text of the inner document
is in the `srcdoc` of the frame clone and `src` is gone. -/
theorem helloPage_serialized :
    serializeDOM stdBrowser 2 { dom := helloPage } {} =
      .ok ("<!DOCTYPE html><html><head></head><body><iframe data-percy-element-id=\"_f\" srcdoc=\"<!DOCTYPE html><html><head><base href=&quot;http://localhost/&quot;></head><body>hello</body></html>\"></iframe></body></html>",
        {}) := by
  rfl

/-! ## Inputs on which the program departs from the stated behaviour -/

/-- C2 fails on `headFramePage`: `.head` of the mock document is a fresh, empty
fragment, so `clone.head.contains(cloneEl)` is false for the frame in the head;
its clone is still in the clone tree after `serializeFrames` and the frame is in
the string `serializeDOM` returns, with `enableJavaScript` off and on. -/
theorem head_frame_not_removed :
    (∃ m w, clonedFrames stdBrowser 0 none headFramePage {} = .ok (m, w) ∧
        m.head = [] ∧ m.querySelector (tagIs "iframe") = some [0, 0]) ∧
      serializeDOM stdBrowser 1 { dom := headFramePage } {} =
        .ok ("<!DOCTYPE html><html><head><iframe src=\"https://ads.example/frame.html\" data-percy-element-id=\"_r0\"></iframe></head><body></body></html>",
          { calls := 1, console := [] }) ∧
      serializeDOM stdBrowser 1 { dom := headFramePage, enableJavaScript := some true } {} =
        .ok ("<!DOCTYPE html><html><head><iframe src=\"https://ads.example/frame.html\" data-percy-element-id=\"_r0\"></iframe></head><body></body></html>",
          { calls := 1, console := [] }) :=
  ⟨⟨_, _, rfl, rfl, rfl⟩, by rfl, by rfl⟩

/-- C3 fails on `uncheckedBoxPage`: the live state of the checkbox is unchecked,
yet its clone carries `checked`, copied with the markup and never removed. -/
theorem unchecked_box_clone_checked :
    uncheckedBox.live.checked = false ∧
      (∃ m, clonedInputs stdBrowser uncheckedBoxPage {} = .ok m ∧
        m.querySelector (attrEquals percyElementIdAttr "_r0") = some [1, 0] ∧
        (m.get? [1, 0]).map (fun c => hasAttribute c.attrs "checked") = some true) ∧
      serializeDOM stdBrowser 1 { dom := uncheckedBoxPage } {} =
        .ok ("<!DOCTYPE html><html><head></head><body><input type=\"checkbox\" checked=\"\" data-percy-element-id=\"_r0\"></body></html>",
          { calls := 1, console := [] }) :=
  ⟨rfl, ⟨_, rfl, rfl, rfl⟩, by rfl⟩

/-- C4 fails on `staleSelectPage`: options 0 and 2 are selected in the source,
yet the option clones that carry `selected` are those at 0, 1 and 2. -/
theorem stale_option_clone_selected :
    staleSelect.live.selectedOptions = [0, 2] ∧
      (∃ m, clonedInputs stdBrowser staleSelectPage {} = .ok m ∧
        (m.get? [1, 0]).map (fun c => selectedIndices c.children) = some [0, 1, 2]) ∧
      serializeDOM stdBrowser 1 { dom := staleSelectPage } {} =
        .ok ("<!DOCTYPE html><html><head></head><body><select multiple=\"\" data-percy-element-id=\"_r0\"><option selected=\"true\">a</option><option selected=\"\">b</option><option selected=\"true\">c</option></select></body></html>",
          { calls := 1, console := [] }) :=
  ⟨rfl, ⟨_, rfl, rfl⟩, by rfl⟩

/-- C10 fails on `dollarRoot`: `replace` expands `$$` in the replacement text, so
the markup `getInnerHTML` returned does not arrive character for character. -/
theorem getOuterHTML_expands_dollar :
    stdBrowser.getInnerHTML dollarRoot = "<head></head><body><p>Total: $$</p></body>" ∧
      stdBrowser.outerHTML (dollarRoot.setChildren []) = "<html></html>" ∧
      getOuterHTML stdBrowser dollarRoot =
        "<html><head></head><body><p>Total: $</p></body></html>" ∧
      getOuterHTML stdBrowser dollarRoot ≠
        "<html>" ++ stdBrowser.getInnerHTML dollarRoot ++ "</html>" :=
  ⟨by rfl, by rfl, by rfl, by decide⟩

theorem filter_setAttribute_other (q : Attr → Bool) (n v : String)
    (hq : ∀ x : Attr, x.name = n → q x = false) (a : List Attr) :
    (setAttribute a n v).filter q = a.filter q := by
  induction a with
  | nil => simp [setAttribute, List.filter, hq ⟨n, v⟩ rfl]
  | cons x rest ih =>
    by_cases h : x.name = n
    · simp [setAttribute, h, List.filter_cons, hq x h, hq ⟨n, v⟩ rfl]
    · simp [setAttribute, h, List.filter_cons, ih]

/-! ## Lemmas on the clone tree -/

theorem getL?_eq (l : List CNode) (i : Nat) (p : List Nat) :
    getL? l i p = match l[i]? with
      | some c => c.get? p
      | none => none := by
  induction l generalizing i with
  | nil => simp [getL?]
  | cons n rest ih =>
    cases i with
    | zero => simp [getL?]
    | succ i => simp [getL?, ih]

theorem spliceAtL_erase (l : List CNode) (i : Nat) :
    spliceAtL (fun _ => []) l i [] = l.eraseIdx i := by
  induction l generalizing i with
  | nil => simp [spliceAtL]
  | cons n rest ih =>
    cases i with
    | zero => simp [spliceAtL]
    | succ i => simp [spliceAtL, ih]

theorem spliceAtL_single (f : CNode → CNode) (l : List CNode) (i : Nat) :
    spliceAtL (fun c => [f c]) l i [] = match l[i]? with
      | some c => l.set i (f c)
      | none => l := by
  induction l generalizing i with
  | nil => simp [spliceAtL]
  | cons n rest ih =>
    cases i with
    | zero => simp [spliceAtL]
    | succ i =>
      simp only [spliceAtL, ih, List.getElem?_cons_succ, List.set_cons_succ]
      cases rest[i]? <;> rfl

theorem spliceAtL_deeper (f : CNode → List CNode) (l : List CNode) (i j : Nat) (q : List Nat) :
    spliceAtL f l i (j :: q) = match l[i]? with
      | some c => l.set i (c.spliceAt f j q)
      | none => l := by
  induction l generalizing i with
  | nil => simp [spliceAtL]
  | cons n rest ih =>
    cases i with
    | zero => simp [spliceAtL]
    | succ i =>
      simp only [spliceAtL, ih, List.getElem?_cons_succ, List.set_cons_succ]
      cases rest[i]? <;> rfl

theorem spliceAt_erase : ∀ (p : List Nat) (i : Nat) (n : CNode),
    n.spliceAt (fun _ => []) i p = erasedAt (i :: p) n
  | [], i, .element t a s kids => by simp [CNode.spliceAt, erasedAt, spliceAtL_erase]
  | [], i, .text _ => by simp [CNode.spliceAt, erasedAt]
  | [], i, .comment _ => by simp [CNode.spliceAt, erasedAt]
  | j :: q, i, .element t a s kids => by
    simp only [CNode.spliceAt, erasedAt, spliceAtL_deeper]
    cases h : kids[i]? with
    | none => rfl
    | some c => simp only [spliceAt_erase q j c]
  | j :: q, i, .text _ => by simp [CNode.spliceAt, erasedAt]
  | j :: q, i, .comment _ => by simp [CNode.spliceAt, erasedAt]

theorem updateAt_eq_replacedAt (f : CNode → CNode) : ∀ (path : List Nat) (n c : CNode),
    n.get? path = some c → n.updateAt f path = replacedAt (f c) path n
  | [], n, c, h => by
    simp only [CNode.get?, Option.some.injEq] at h
    simp [CNode.updateAt, replacedAt, h]
  | i :: p, .element t a s kids, c, h => by
    simp only [CNode.get?, getL?_eq] at h
    cases hk : kids[i]? with
    | none => simp [hk] at h
    | some ci =>
      simp only [hk] at h
      cases p with
      | nil =>
        simp only [CNode.get?, Option.some.injEq] at h
        subst h
        simp [CNode.updateAt, CNode.spliceAt, replacedAt, spliceAtL_single, hk]
      | cons j q =>
        have ih := updateAt_eq_replacedAt f (j :: q) ci c h
        simp only [CNode.updateAt] at ih
        simp [CNode.updateAt, CNode.spliceAt, replacedAt, spliceAtL_deeper, hk, ih]
  | i :: p, .text _, c, h => by simp [CNode.get?] at h
  | i :: p, .comment _, c, h => by simp [CNode.get?] at h

mutual
theorem findPath_sound (p : CNode → Bool) :
    ∀ (n : CNode) (path : List Nat), n.findPath p = some path →
      ∃ c, n.get? path = some c ∧ p c = true
  | .element t a s kids, path, h => by
    simp only [CNode.findPath] at h
    by_cases hp : p (.element t a s kids) = true
    · simp only [hp, if_true, Option.some.injEq] at h
      subst h
      exact ⟨_, rfl, hp⟩
    · simp only [hp] at h
      obtain ⟨j, q, c, hpath, hget, hc⟩ := findPathL_sound p kids 0 path h
      subst hpath
      exact ⟨c, by simpa [CNode.get?] using hget, hc⟩
  | .text _, path, h => by simp [CNode.findPath] at h
  | .comment _, path, h => by simp [CNode.findPath] at h
theorem findPathL_sound (p : CNode → Bool) :
    ∀ (l : List CNode) (i : Nat) (path : List Nat), findPathL p l i = some path →
      ∃ j q c, path = (i + j) :: q ∧ getL? l j q = some c ∧ p c = true
  | [], i, path, h => by simp [findPathL] at h
  | n :: rest, i, path, h => by
    simp only [findPathL] at h
    cases hn : n.findPath p with
    | some q =>
      simp only [hn, Option.some.injEq] at h
      obtain ⟨c, hget, hc⟩ := findPath_sound p n q hn
      exact ⟨0, q, c, by simp [← h], by simpa [getL?] using hget, hc⟩
    | none =>
      simp only [hn] at h
      obtain ⟨j, q, c, hpath, hget, hc⟩ := findPathL_sound p rest (i + 1) path h
      exact ⟨j + 1, q, c, by rw [hpath]; congr 1; omega, by simpa [getL?] using hget, hc⟩
end

/-! ## Lemmas for the dispositions of `serializeFrames` -/

theorem carriersL_eraseIdx (v : String) (l : List CNode) (i : Nat) (c : CNode)
    (h : l[i]? = some c) : carriersL v (l.eraseIdx i) + c.carriers v = carriersL v l := by
  induction l generalizing i with
  | nil => simp at h
  | cons n rest ih =>
    cases i with
    | zero =>
      simp only [List.getElem?_cons_zero, Option.some.injEq] at h
      subst h
      simp only [List.eraseIdx_cons_zero, carriersL]
      omega
    | succ i =>
      simp only [List.getElem?_cons_succ] at h
      have := ih i h
      simp only [List.eraseIdx_cons_succ, carriersL]
      omega

theorem carriersL_set (v : String) (l : List CNode) (i : Nat) (c c2 : CNode)
    (h : l[i]? = some c) :
    carriersL v (l.set i c2) + c.carriers v = carriersL v l + c2.carriers v := by
  induction l generalizing i with
  | nil => simp at h
  | cons n rest ih =>
    cases i with
    | zero =>
      simp only [List.getElem?_cons_zero, Option.some.injEq] at h
      subst h
      simp only [List.set_cons_zero, carriersL]
      omega
    | succ i =>
      simp only [List.getElem?_cons_succ] at h
      have := ih i h
      simp only [List.set_cons_succ, carriersL]
      omega

theorem carriers_erasedAt (v : String) : ∀ (p : List Nat) (i : Nat) (n c : CNode),
    n.get? (i :: p) = some c → (erasedAt (i :: p) n).carriers v + c.carriers v = n.carriers v
  | [], i, .element t a s kids, c, h => by
    simp only [CNode.get?, getL?_eq] at h
    cases hk : kids[i]? with
    | none => simp [hk] at h
    | some ci =>
      simp only [hk, CNode.get?, Option.some.injEq] at h
      subst h
      have := carriersL_eraseIdx v kids i ci hk
      simp only [erasedAt, CNode.carriers]
      omega
  | j :: q, i, .element t a s kids, c, h => by
    simp only [CNode.get?, getL?_eq] at h
    cases hk : kids[i]? with
    | none => simp [hk] at h
    | some ci =>
      simp only [hk] at h
      have ih := carriers_erasedAt v q j ci c h
      have := carriersL_set v kids i ci (erasedAt (j :: q) ci) hk
      simp only [erasedAt, hk, CNode.carriers]
      omega
  | p, i, .text _, c, h => by simp [CNode.get?] at h
  | p, i, .comment _, c, h => by simp [CNode.get?] at h

theorem getAttribute_removeAttribute_ne (a : List Attr) (k n : String) (h : n ≠ k) :
    getAttribute (removeAttribute a k) n = getAttribute a n := by
  induction a with
  | nil => simp [removeAttribute]
  | cons x rest ih =>
    by_cases hx : x.name = k
    · have hxn : ¬ x.name = n := by rw [hx]; exact fun e => h e.symm
      simp only [removeAttribute, hx, if_true]
      rw [show getAttribute (x :: rest) n = getAttribute rest n by simp [getAttribute, hxn]]
    · by_cases hn : x.name = n
      · simp only [removeAttribute, hx, if_false]
        simp [getAttribute, hn]
      · simp only [removeAttribute, hx, if_false]
        simp [getAttribute, hn, ih]

theorem filter_removeAttribute_other (q : Attr → Bool) (k : String)
    (hq : ∀ x : Attr, x.name = k → q x = false) (a : List Attr) :
    (removeAttribute a k).filter q = a.filter q := by
  induction a with
  | nil => simp [removeAttribute]
  | cons x rest ih =>
    by_cases h : x.name = k
    · simp [removeAttribute, h, List.filter_cons, hq x h]
    · simp [removeAttribute, h, List.filter_cons, ih]

theorem filter_removeAttribute_self (k : String) (a : List Attr) :
    (removeAttribute a k).filter (fun x => x.name == k) =
      (a.filter (fun x => x.name == k)).drop 1 := by
  induction a with
  | nil => simp [removeAttribute]
  | cons x rest ih =>
    by_cases h : x.name = k
    · simp [removeAttribute, h, List.filter_cons]
    · simp [removeAttribute, h, List.filter_cons, ih]

theorem getAttribute_eq_none_of_filter (k : String) (a : List Attr)
    (h : a.filter (fun x => x.name == k) = []) : getAttribute a k = none := by
  induction a with
  | nil => simp [getAttribute]
  | cons x rest ih =>
    by_cases hx : x.name = k
    · simp [List.filter_cons, hx] at h
    · simp only [List.filter_cons, beq_iff_eq, hx, if_false] at h
      simp [getAttribute, hx, ih h]

/-- The branches of the loop body of `serializeFrames`, in terms of the tests
the program makes and the operations it applies to the mock document. -/
theorem serializeFrame_branches (B : Browser) (fuel : Nat) (enableJavaScript : Option Bool)
    (frame : Node) (m : MockDocument) (w : World) (path : List Nat)
    (hfind : m.querySelectorId B true (frame.getAttribute percyElementIdAttr) = .ok (some path))
    (hhead : m.headContains (some path) = false) :
    (frameBranch (enableJavaScript.getD false) frame = .untouched →
      serializeFrame (fun inner w2 => serializeDOM B fuel
          { dom := inner, domTransformation := some (setBaseURI B),
            enableJavaScript := enableJavaScript } w2)
        B (enableJavaScript.getD false) frame (m, w) = .ok (m, w)) ∧
      (frameBranch (enableJavaScript.getD false) frame = .remove →
        serializeFrame (fun inner w2 => serializeDOM B fuel
            { dom := inner, domTransformation := some (setBaseURI B),
              enableJavaScript := enableJavaScript } w2)
          B (enableJavaScript.getD false) frame (m, w) = .ok (m.remove path, w)) ∧
      (frameBranch (enableJavaScript.getD false) frame = .serialize →
        ∃ inner, frame.contentDocument = some inner ∧ inner.documentElement.isSome = true ∧
          serializeFrame (fun inner w2 => serializeDOM B fuel
              { dom := inner, domTransformation := some (setBaseURI B),
                enableJavaScript := enableJavaScript } w2)
            B (enableJavaScript.getD false) frame (m, w) =
            (serializeDOM B fuel
              { dom := inner, domTransformation := some (setBaseURI B),
                enableJavaScript := enableJavaScript } w).bind fun r =>
              .ok (m.update path fun c => (c.setAttribute "srcdoc" r.1).removeAttribute "src",
                r.2)) ∧
      (∀ recur dom st, serializeFrames recur B (enableJavaScript.getD false) dom st =
        forEachM (serializeFrame recur B (enableJavaScript.getD false))
          (dom.querySelectorAll ["iframe"]) st) := by
  have hacc : ∀ inner, accessibleDocument frame = some inner →
      frame.contentDocument = some inner ∧ inner.documentElement.isSome = true := by
    intro inner h
    unfold accessibleDocument at h
    split at h
    · rename_i dt root hcd
      simp only [Option.some.injEq] at h
      subst h
      exact ⟨hcd, rfl⟩
    · simp at h
  refine ⟨?_, ?_, ?_, fun _ _ _ => rfl⟩
  · intro hd
    simp only [serializeFrame, hfind, Res.bind, hhead]
    unfold frameBranch disposition at hd
    cases ha : accessibleDocument frame with
    | none =>
      simp only [ha, Option.isSome] at hd
      split at hd
      · simp at hd
      · rename_i hc
        simp only [Bool.false_eq_true, if_false]
        cases hj : enableJavaScript.getD false <;> cases hb : builtWithJs frame <;>
          simp [hj, hb] at hc ⊢
    | some inner =>
      simp only [ha, Option.isSome] at hd
      cases hj : enableJavaScript.getD false <;> cases hb : builtWithJs frame <;>
        cases hl : (frame.live.loadEventEnd == 0) <;> simp [hj, hb, hl] at hd ⊢
      all_goals simp_all [bne]
  · intro hd
    simp only [serializeFrame, hfind, Res.bind, hhead]
    unfold frameBranch disposition at hd
    cases ha : accessibleDocument frame with
    | none =>
      simp only [ha, Option.isSome] at hd
      cases hj : enableJavaScript.getD false <;> cases hb : builtWithJs frame <;>
        simp [hj, hb, withClone, Res.bind] at hd ⊢
    | some inner =>
      simp only [ha, Option.isSome] at hd
      split at hd
      · simp at hd
      · split at hd <;> simp at hd
  · intro hd
    unfold frameBranch disposition at hd
    cases ha : accessibleDocument frame with
    | none =>
      simp only [ha, Option.isSome] at hd
      split at hd <;> simp at hd
    | some inner =>
      refine ⟨inner, (hacc inner ha).1, (hacc inner ha).2, ?_⟩
      simp only [serializeFrame, hfind, Res.bind, hhead, ha]
      simp only [ha, Option.isSome] at hd
      cases hj : enableJavaScript.getD false <;> cases hb : builtWithJs frame <;>
        cases hl : (frame.live.loadEventEnd == 0) <;> simp [hj, hb, hl, bne] at hd ⊢
      all_goals
        cases hr : serializeDOM B fuel
          { dom := inner, domTransformation := some (setBaseURI B),
            enableJavaScript := enableJavaScript } w <;> simp [Res.bind, withClone]

theorem splitHead_eq_iff (sep : Char) : ∀ (l w : List Char), sep ∉ w →
    (splitHead sep l = w ↔ l = w ∨ l.take (w.length + 1) = w ++ [sep])
  | [], w, _ => by
    cases w <;> simp [splitHead]
  | c :: r, [], _ => by
    by_cases hc : c = sep
    · simp [splitHead, hc]
    · simp [splitHead, hc]
  | c :: r, d :: w, hw => by
    have hd : d ≠ sep := fun e => hw (by simp [e])
    have hw2 : sep ∉ w := fun e => hw (List.mem_cons_of_mem d e)
    have ih := splitHead_eq_iff sep r w hw2
    by_cases hc : c = sep
    · subst hc
      have hcd : c ≠ d := fun e => hd e.symm
      simp [splitHead, hcd]
    · simp only [splitHead, hc, if_false, List.cons.injEq, List.length_cons, List.take_succ_cons,
        List.cons_append, ih]
      constructor
      · rintro ⟨h1, h2 | h2⟩
        · exact Or.inl ⟨h1, h2⟩
        · exact Or.inr ⟨h1, h2⟩
      · rintro (⟨h1, h2⟩ | ⟨h1, h2⟩)
        · exact ⟨h1, Or.inl h2⟩
        · exact ⟨h1, Or.inr h2⟩

theorem builtWithJs_eq_scriptAuthored (frame : Node) :
    builtWithJs frame = scriptAuthored frame.live.srcdoc frame.live.src := by
  unfold builtWithJs scriptAuthored isJavascriptURL
  have key : (String.mk (splitHead ':' frame.live.src.data) == "javascript") =
      (frame.live.src == "javascript" ||
        frame.live.src.data.take 11 == ['j', 'a', 'v', 'a', 's', 'c', 'r', 'i', 'p', 't', ':']) := by
    have h := splitHead_eq_iff ':' frame.live.src.data
      ['j', 'a', 'v', 'a', 's', 'c', 'r', 'i', 'p', 't'] (by decide)
    rw [Bool.eq_iff_iff]
    simp only [beq_iff_eq, Bool.or_eq_true]
    have e1 : (String.mk (splitHead ':' frame.live.src.data) = "javascript") ↔
        splitHead ':' frame.live.src.data = ['j', 'a', 'v', 'a', 's', 'c', 'r', 'i', 'p', 't'] := by
      rw [String.ext_iff]
    have e2 : (frame.live.src = "javascript") ↔
        frame.live.src.data = ['j', 'a', 'v', 'a', 's', 'c', 'r', 'i', 'p', 't'] := by
      rw [String.ext_iff]
    rw [e1, e2, h]
    rfl
  rw [key, Bool.or_assoc]

theorem accessibleDocument_isSome (frame : Node) :
    (accessibleDocument frame).isSome = frameAccessible frame := by
  unfold accessibleDocument frameAccessible
  cases h : frame.contentDocument with
  | none => rfl
  | some d =>
    cases d with
    | mk dt root => cases root <;> rfl

theorem frameBranch_eq_table (js : Bool) (frame : Node) :
    frameBranch js frame = tableDisposition js frame := by
  unfold frameBranch tableDisposition
  rw [builtWithJs_eq_scriptAuthored, accessibleDocument_isSome]

/-- C1, as stated, fails on two inputs.  On `sharedIdPage` (JavaScript off) the
table leaves the first frame untouched and removes the second, yet both frames
carry the identifier `dup`, the lookup finds the clone of the first frame both
times, and after `serializeFrames` the body holds the clone of the second frame
only.  On `bareWordPage` (JavaScript on) `src` is the bare word `javascript`,
which is not empty and not a `javascript:` URL, so the table serialises the
frame, yet the program takes it for script-built and leaves the clone as it
was. -/
theorem serializeFrames_departs_from_table :
    (narrowDisposition false staticFrame = .untouched ∧
        narrowDisposition false scriptedFrame = .remove ∧
        ∃ m w, clonedFrames stdBrowser 0 none sharedIdPage {} = .ok (m, w) ∧
          (m.get? [1]).map CNode.children =
            some [.element "iframe" [⟨"name", "b"⟩, ⟨"data-percy-element-id", "dup"⟩] none []]) ∧
      (narrowDisposition true bareWordFrame = .serialize ∧
        ∃ m w, clonedFrames stdBrowser 1 (some true) bareWordPage {} = .ok (m, w) ∧
          (m.get? [1]).map CNode.children =
            some [.element "iframe" [⟨"src", "javascript"⟩, ⟨"data-percy-element-id", "_b"⟩]
              none []]) :=
  ⟨⟨by rfl, by rfl, _, _, rfl, rfl⟩, by rfl, _, _, rfl, rfl⟩

/-- C1, amended. Take an iframe, let `v` be its identifier as the selector reads
it, let `path` be the element the lookup finds, let that element be the only
one of the clone tree that carries `v` (it is the clone of the frame), and let
it not be inside the cloned head.  Then the loop body of `serializeFrames`
applies the disposition of the decision table, where script-authored means that
`srcdoc` is empty and `src` is empty, the bare word `javascript`, or a
`javascript:` URL:

* untouched: the mock document and the world stay as they are;
* remove: the clone leaves the child list of its parent (the root clone leaves
  the fragment), nothing else changes, and no element of the clone tree carries
  `v` any more;
* serialize: the inner document is serialised by `serializeDOM` with
  `setBaseURI` as transformation and the same `enableJavaScript`; when that call
  returns `s`, the clone is replaced by a copy of itself whose `srcdoc` is `s`,
  whose first `src` attribute is gone (none is left when it had at most one) and
  whose other attributes, shadow root and children are as before; an exception
  of the inner call propagates.

`serializeFrames` runs this body on every iframe of the document in tree
order. -/
theorem serializeFrame_disposition (B : Browser) (fuel : Nat) (enableJavaScript : Option Bool)
    (frame : Node) (m : MockDocument) (w : World) (path : List Nat) (v : String)
    (hv : B.cssAttrValue true (toStr (frame.getAttribute "data-percy-element-id")) = some v)
    (hfind : m.querySelector (attrEquals "data-percy-element-id" v) = some path)
    (huniq : m.carriers v = 1)
    (hhead : m.headContains (some path) = false) :
    ∃ t a sr kids,
      m.get? path = some (.element t a sr kids) ∧
      getAttribute a "data-percy-element-id" = some v ∧
      (tableDisposition (enableJavaScript.getD false) frame = .untouched →
        serializeFrame (fun inner w2 => serializeDOM B fuel
            { dom := inner, domTransformation := some (setBaseURI B),
              enableJavaScript := enableJavaScript } w2)
          B (enableJavaScript.getD false) frame (m, w) = .ok (m, w)) ∧
      (tableDisposition (enableJavaScript.getD false) frame = .remove →
        serializeFrame (fun inner w2 => serializeDOM B fuel
            { dom := inner, domTransformation := some (setBaseURI B),
              enableJavaScript := enableJavaScript } w2)
          B (enableJavaScript.getD false) frame (m, w) = .ok (m.withoutNode path, w) ∧
        (m.withoutNode path).carriers v = 0) ∧
      (tableDisposition (enableJavaScript.getD false) frame = .serialize →
        ∃ inner, frame.contentDocument = some inner ∧
          (∀ s w2, serializeDOM B fuel
              { dom := inner, domTransformation := some (setBaseURI B),
                enableJavaScript := enableJavaScript } w = .ok (s, w2) →
            ∃ a2,
              serializeFrame (fun inner w2 => serializeDOM B fuel
                  { dom := inner, domTransformation := some (setBaseURI B),
                    enableJavaScript := enableJavaScript } w2)
                B (enableJavaScript.getD false) frame (m, w) =
                .ok (m.withNode path (.element t a2 sr kids), w2) ∧
              getAttribute a2 "srcdoc" = some s ∧
              a2.filter (fun x => x.name == "src") =
                (a.filter (fun x => x.name == "src")).drop 1 ∧
              ((a.filter (fun x => x.name == "src")).length ≤ 1 →
                getAttribute a2 "src" = none) ∧
              a2.filter (fun x => x.name != "srcdoc" && x.name != "src") =
                a.filter (fun x => x.name != "srcdoc" && x.name != "src")) ∧
          (∀ e, serializeDOM B fuel
              { dom := inner, domTransformation := some (setBaseURI B),
                enableJavaScript := enableJavaScript } w = .throw e →
            serializeFrame (fun inner w2 => serializeDOM B fuel
                { dom := inner, domTransformation := some (setBaseURI B),
                  enableJavaScript := enableJavaScript } w2)
              B (enableJavaScript.getD false) frame (m, w) = .throw e) ∧
          (serializeDOM B fuel
              { dom := inner, domTransformation := some (setBaseURI B),
                enableJavaScript := enableJavaScript } w = .outOfFuel →
            serializeFrame (fun inner w2 => serializeDOM B fuel
                { dom := inner, domTransformation := some (setBaseURI B),
                  enableJavaScript := enableJavaScript } w2)
              B (enableJavaScript.getD false) frame (m, w) = .outOfFuel)) ∧
      (∀ recur dom st, serializeFrames recur B (enableJavaScript.getD false) dom st =
        forEachM (serializeFrame recur B (enableJavaScript.getD false))
          (dom.querySelectorAll ["iframe"]) st) := by
  have hq : m.querySelectorId B true (frame.getAttribute percyElementIdAttr) =
      .ok (some path) := by
    have hv2 : B.cssAttrValue true (toStr (frame.getAttribute percyElementIdAttr)) = some v := hv
    have hf2 : m.querySelector (attrEquals percyElementIdAttr v) = some path := hfind
    simp only [MockDocument.querySelectorId, hv2, hf2]
  have hatt : m.attached = true := by
    unfold MockDocument.querySelector at hfind
    by_cases h : m.attached = true
    · exact h
    · simp [h] at hfind
  have hfp : m.documentElement.findPath (attrEquals "data-percy-element-id" v) = some path := by
    simpa [MockDocument.querySelector, hatt] using hfind
  obtain ⟨c, hget, hc⟩ := findPath_sound _ _ _ hfp
  obtain ⟨hb1, hb2, hb3, hb4⟩ := serializeFrame_branches B fuel enableJavaScript frame m w path hq hhead
  rw [frameBranch_eq_table] at hb1 hb2 hb3
  cases c with
  | text d => simp [attrEquals, CNode.isElement] at hc
  | comment d => simp [attrEquals, CNode.isElement] at hc
  | element t a sr kids =>
    have hid : getAttribute a "data-percy-element-id" = some v := by
      simpa [attrEquals, CNode.isElement, CNode.attrs] using hc
    refine ⟨t, a, sr, kids, hget, hid, hb1, ?_, ?_, hb4⟩
    · intro hd
      have hrem : m.remove path = m.withoutNode path := by
        cases path with
        | nil => rfl
        | cons i p => simp [MockDocument.remove, MockDocument.withoutNode, spliceAt_erase]
      refine ⟨by rw [hb2 hd, hrem], ?_⟩
      cases path with
      | nil => simp [MockDocument.withoutNode, MockDocument.carriers]
      | cons i p =>
        have h1 := carriers_erasedAt v p i m.documentElement _ hget
        have h2 : m.documentElement.carriers v = 1 := by
          simpa [MockDocument.carriers, hatt] using huniq
        have h3 : 1 ≤ (CNode.element t a sr kids).carriers v := by
          simp [CNode.carriers, hid]
        simp only [MockDocument.withoutNode, MockDocument.carriers, hatt, if_true]
        omega
    · intro hd
      obtain ⟨inner, hcd, _, hrun⟩ := hb3 hd
      refine ⟨inner, hcd, ?_, ?_, ?_⟩
      · intro s w2 hs
        refine ⟨removeAttribute (setAttribute a "srcdoc" s) "src", ?_, ?_, ?_, ?_, ?_⟩
        · rw [hrun, hs]
          simp only [Res.bind, MockDocument.update, MockDocument.withNode]
          rw [updateAt_eq_replacedAt _ path m.documentElement _ hget]
          rfl
        · rw [getAttribute_removeAttribute_ne _ _ _ (by decide)]
          exact getAttribute_setAttribute a "srcdoc" s
        · rw [filter_removeAttribute_self,
            filter_setAttribute_other _ _ _ (by intro x hx; simp [hx])]
        · intro hlen
          apply getAttribute_eq_none_of_filter
          rw [filter_removeAttribute_self,
            filter_setAttribute_other _ _ _ (by intro x hx; simp [hx])]
          cases hl : a.filter (fun x => x.name == "src") with
          | nil => rfl
          | cons y ys =>
            rw [hl] at hlen
            cases ys with
            | nil => rfl
            | cons z zs => simp at hlen
        · rw [filter_removeAttribute_other _ _ (by intro x hx; simp [hx]),
            filter_setAttribute_other _ _ _ (by intro x hx; simp [hx])]
      · intro e he
        rw [hrun, he]
        rfl
      · intro he
        rw [hrun, he]
        rfl

theorem serializeFrame_disposition_witness :
    stdBrowser.cssAttrValue true (toStr (helloFrame.getAttribute "data-percy-element-id")) =
        some "_f" ∧
      helloClone.querySelector (attrEquals "data-percy-element-id" "_f") = some [1, 0] ∧
      helloClone.carriers "_f" = 1 ∧
      helloClone.headContains (some [1, 0]) = false ∧
      tableDisposition false helloFrame = .serialize ∧
      ∃ t a sr kids,
        helloClone.get? [1, 0] = some (.element t a sr kids) ∧
        getAttribute a "data-percy-element-id" = some "_f" ∧
        ∃ inner, helloFrame.contentDocument = some inner ∧
          ∀ s w2, serializeDOM stdBrowser 1
              { dom := inner, domTransformation := some (setBaseURI stdBrowser),
                enableJavaScript := none } {} = .ok (s, w2) →
            ∃ a2,
              serializeFrame (fun inner w2 => serializeDOM stdBrowser 1
                  { dom := inner, domTransformation := some (setBaseURI stdBrowser),
                    enableJavaScript := none } w2)
                stdBrowser false helloFrame (helloClone, {}) =
                .ok (helloClone.withNode [1, 0] (.element t a2 sr kids), w2) ∧
              getAttribute a2 "srcdoc" = some s ∧
              getAttribute a2 "src" = none := by
  refine ⟨by rfl, by rfl, by rfl, by rfl, by rfl, ?_⟩
  obtain ⟨t, a, sr, kids, hget, hid, _, _, hser, _⟩ :=
    serializeFrame_disposition stdBrowser 1 none helloFrame helloClone {} [1, 0] "_f"
      (by rfl) (by rfl) (by rfl) (by rfl)
  obtain ⟨inner, hcd, hok, _, _⟩ := hser (by rfl)
  refine ⟨t, a, sr, kids, hget, hid, inner, hcd, ?_⟩
  intro s w2 hs
  obtain ⟨a2, hrun, hsrcdoc, _, hsrc, _⟩ := hok s w2 hs
  have ha : a = [⟨"src", "/inner.html"⟩, ⟨"data-percy-element-id", "_f"⟩] := by
    have h2 : helloClone.get? [1, 0] = some (.element "iframe"
        [⟨"src", "/inner.html"⟩, ⟨"data-percy-element-id", "_f"⟩] none []) := by rfl
    rw [h2] at hget
    simp only [Option.some.injEq, CNode.element.injEq] at hget
    exact hget.2.1.symm
  exact ⟨a2, hrun, hsrcdoc, hsrc (by rw [ha]; decide)⟩

theorem prepareElement_idAdded (B : Browser) (t : String) (a : List Attr) (w : World)
    (ht : t ∈ ["input", "textarea", "select", "iframe", "canvas", "video", "style"]) :
    IdAdded ["input", "textarea", "select", "iframe", "canvas", "video", "style"] t a
      (prepareElement B a w).1 := by
  unfold IdAdded prepareElement
  by_cases h : truthy (getAttribute a percyElementIdAttr) = true
  · have h2 : truthy (getAttribute a "data-percy-element-id") = true := h
    simp [h, h2]
  · have h2 : truthy (getAttribute a "data-percy-element-id") = false := by
      simpa [percyElementIdAttr] using h
    simp only [h, h2, ht, and_self, if_true, Bool.not_false, Bool.false_eq_true, if_false,
      not_false_eq_true]
    refine ⟨?_, ?_⟩
    · have := getAttribute_setAttribute a percyElementIdAttr (uid B w).1
      change truthy (getAttribute (setAttribute a percyElementIdAttr (uid B w).1)
        percyElementIdAttr) = true
      rw [this]
      exact truthy_uid B w
    · exact filter_setAttribute_other _ _ _ (by intro x hx; simp [hx, percyElementIdAttr]) a

theorem idAdded_refl_of_not_mem (kinds : List String) (t : String) (a : List Attr)
    (ht : t ∉ kinds) : IdAdded kinds t a a := by
  simp [IdAdded, ht]

mutual
theorem prepareNode_taggedFrom (B : Browser) :
    ∀ (n : Node) (w : World),
      TaggedFrom ["input", "textarea", "select", "iframe", "canvas", "video", "style"] n
        (prepareNode B n w).1
  | .element t a l s d kids, w => by
    by_cases ht : t ∈ ["input", "textarea", "select", "iframe", "canvas", "video", "style"]
    · have hc : tagWorthy.contains t = true := by simpa [tagWorthy] using ht
      simp only [prepareNode, hc, if_true, TaggedFrom, true_and]
      exact ⟨prepareElement_idAdded B t a w ht, prepareList_taggedFrom B kids _⟩
    · have hc : ¬ tagWorthy.contains t = true := by simpa [tagWorthy] using ht
      simp only [prepareNode, hc, TaggedFrom, true_and]
      exact ⟨idAdded_refl_of_not_mem _ t a ht, prepareList_taggedFrom B kids _⟩
  | .text _, _ => by simp [prepareNode, TaggedFrom]
  | .comment _, _ => by simp [prepareNode, TaggedFrom]
theorem prepareList_taggedFrom (B : Browser) :
    ∀ (l : List Node) (w : World),
      TaggedFromL ["input", "textarea", "select", "iframe", "canvas", "video", "style"] l
        (prepareList B l w).1
  | [], _ => by simp [prepareList, TaggedFromL]
  | n :: rest, w => by
    simp only [prepareList, TaggedFromL]
    exact ⟨prepareNode_taggedFrom B n w, prepareList_taggedFrom B rest _⟩
end

mutual
theorem prepareNode_allCarryId (B : Browser) :
    ∀ (n : Node) (w : World),
      (prepareNode B n w).1.allCarryId
        ["input", "textarea", "select", "iframe", "canvas", "video", "style"] = true
  | .element t a l s d kids, w => by
    by_cases ht : t ∈ ["input", "textarea", "select", "iframe", "canvas", "video", "style"]
    · have hc : tagWorthy.contains t = true := by simpa [tagWorthy] using ht
      have h1 : truthy (getAttribute (prepareElement B a w).1 "data-percy-element-id") = true :=
        prepareElement_truthy B a w
      simp only [prepareNode, hc, if_true, Node.allCarryId, h1, Bool.or_true, Bool.true_and]
      exact prepareList_allCarryId B kids _
    · have hc : ¬ tagWorthy.contains t = true := by simpa [tagWorthy] using ht
      have hk : (["input", "textarea", "select", "iframe", "canvas", "video", "style"].contains t)
          = false := by simpa using ht
      simp only [prepareNode, hc, Node.allCarryId, hk, Bool.not_false, Bool.true_or,
        Bool.true_and]
      exact prepareList_allCarryId B kids _
  | .text _, _ => by simp [prepareNode, Node.allCarryId]
  | .comment _, _ => by simp [prepareNode, Node.allCarryId]
theorem prepareList_allCarryId (B : Browser) :
    ∀ (l : List Node) (w : World),
      allCarryIdL ["input", "textarea", "select", "iframe", "canvas", "video", "style"]
        (prepareList B l w).1 = true
  | [], _ => by simp [prepareList, allCarryIdL]
  | n :: rest, w => by
    simp only [prepareList, allCarryIdL, prepareNode_allCarryId B n w,
      prepareList_allCarryId B rest, Bool.and_self]
end

/-- C8 fails on `shadowHostPage` when every input of the page is meant:
`querySelectorAll` does not enter shadow trees, so after a run the input in the
shadow tree carries no identifier. -/
theorem shadow_input_left_untagged :
    (((prepareDOM stdBrowser shadowHostPage {}).1.shadowInclusiveElements.filter
        (Node.hasTagIn ["input"])).map fun e => e.getAttribute "data-percy-element-id") =
      [none] := by
  rfl

/-- C8, amended. A run of `prepareDOM` changes nothing in the document but the
`data-percy-element-id` attribute of the input, textarea, select, iframe,
canvas, video and style elements of the document tree (shadow trees and frame
documents left out) that had none or an empty one: each gets a non-empty
identifier, whatever identifiers `uid` draws.  A second run, whatever it would
draw, changes nothing at all, so no tagged element is retagged.  After a run
every such element of the document tree carries a non-empty identifier. -/
theorem prepareDOM_idempotent (B B2 : Browser) (dom : Document) (w w2 : World) :
    DocumentTaggedFrom ["input", "textarea", "select", "iframe", "canvas", "video", "style"] dom
        (prepareDOM B dom w).1 ∧
      prepareDOM B2 (prepareDOM B dom w).1 w2 = ((prepareDOM B dom w).1, w2) ∧
      (prepareDOM B dom w).1.allCarryId
        ["input", "textarea", "select", "iframe", "canvas", "video", "style"] = true := by
  cases dom with
  | mk dt root =>
    cases root with
    | none => simp [prepareDOM, DocumentTaggedFrom, Document.allCarryId]
    | some r =>
      refine ⟨?_, ?_, ?_⟩
      · simp only [prepareDOM, DocumentTaggedFrom, true_and]
        exact prepareNode_taggedFrom B r w
      · simp only [prepareDOM, prepareNode_again B B2 r w w2]
      · simpa [prepareDOM, Document.allCarryId] using prepareNode_allCarryId B r w

end PercyDOM
